import Mathlib

/-!
Verification development for the collaborative setlist synthesis engine of the
`sconse` repository.  The definitions below are a shallow embedding of
`app/services/chat_setlist_service.py` (preference extraction, group-preference
collection state machine, collaborative filtering/selection) and
`app/services/setlist_agents/multi_agent_coordinator.py` together with the
three advisor agents (fallback suggestion lists and default evaluations).

Embedding conventions:
* Python strings are modelled as `String` / `List Char`; `str.lower` is
  ASCII lowering (`Char.toLower`), matching the repository's ASCII data.
* Python `a in b` on strings is substring containment, modelled by
  `containsTok`.
* Python floats only appear as the comparisons `x <= t * 0.9`, `x < t * 0.9`
  and the constant `0.9`/`0.5` arithmetic on small integers; these are
  modelled exactly over `Int`/`ℚ` (`10 * x ≤ 9 * t` etc.).  For integer `x`
  and `t` of realistic magnitude the double-precision comparison in CPython
  agrees with the rational one, since `float(t * 0.9)` differs from the
  rational `9*t/10` by far less than the gap to the nearest integer, and for
  `t` a multiple of 10 the product rounds to the exact integer.
* The regular expressions used by `_parse_preference_text` are modelled by
  direct scanners for the exact pattern shapes occurring in the source
  (literal alternation, non-newline lazy gaps `.*?`, greedy `[a-zA-Z\s]+`
  capture, greedy `\s+`).  Every alternation in the source consists of
  mutually non-prefix literals, so at most one alternative matches at a given
  position and no alternation backtracking is needed; lazy-gap backtracking
  is implemented by advancing the scan position.
* Python `list(set(xs))` iterates in an unspecified order; every use in the
  embedded code is order-insensitive (membership tests and joins whose order
  no claim depends on), and it is modelled by first-occurrence deduplication.
-/

/-- ASCII lowering of a character list (model of Python `str.lower` on the
repository's ASCII data). -/
def lowerL (l : List Char) : List Char := l.map Char.toLower

/-- Python `\s` character class: space, tab, newline, carriage return,
vertical tab, form feed. -/
def pySpace (c : Char) : Bool :=
  c = ' ' || c.toNat = 9 || c.toNat = 10 || c.toNat = 13 || c.toNat = 11 || c.toNat = 12

/-- ASCII letter (the `[a-zA-Z]` part of the capture class). -/
def pyAlpha (c : Char) : Bool :=
  (97 ≤ c.toNat && c.toNat ≤ 122) || (65 ≤ c.toNat && c.toNat ≤ 90)

/-- The capture class `[a-zA-Z\s]`. -/
def pyAlphaSpace (c : Char) : Bool := pyAlpha c || pySpace c

/-- Does `pat` occur as a prefix of `t`? -/
def startsWithL : List Char → List Char → Bool
| [], _ => true
| _ :: _, [] => false
| p :: ps, c :: cs => p = c && startsWithL ps cs

/-- Python substring containment `pat in text`. -/
def containsTok : List Char → List Char → Bool
| pat, [] => startsWithL pat []
| pat, c :: cs => startsWithL pat (c :: cs) || containsTok pat cs

/-- Python `text.find(pat)`: index of the first occurrence, `none` if absent. -/
def firstOccurIdx : List Char → List Char → Option Nat
| pat, [] => if startsWithL pat [] then some 0 else none
| pat, c :: cs =>
  if startsWithL pat (c :: cs) then some 0
  else (firstOccurIdx pat cs).map (· + 1)

/-- Python `str.strip()`: remove leading and trailing whitespace. -/
def stripL (l : List Char) : List Char :=
  ((l.dropWhile pySpace).reverse.dropWhile pySpace).reverse

/-- Python `str.title()`: uppercase each letter that does not follow a
letter, lowercase the others. -/
def pyTitleGo : List Char → Bool → List Char
| [], _ => []
| c :: cs, prev =>
  (if pyAlpha c then (if prev then c.toLower else c.toUpper) else c)
    :: pyTitleGo cs (pyAlpha c)

def pyTitle (l : List Char) : List Char := pyTitleGo l false

/-- Substring test for a list of lowercase keyword literals against a
lowercased text, modelling `any(kw in text_lower for kw in kws)`. -/
def containsAny (kws : List String) (textL : List Char) : Bool :=
  kws.any (fun k => containsTok k.data textL)

/-- Try each alternative of a literal alternation as a prefix of `t`; return
the length of the first (hence, by mutual non-prefixness, the only) matching
alternative. -/
def matchAltAt : List String → List Char → Option Nat
| [], _ => none
| a :: rest, t => if startsWithL a.data t then some a.data.length else matchAltAt rest t

/-- Model of `.*?([a-zA-Z\s]+)` (a lazy non-newline gap followed by a greedy
capture): scan to the first `[a-zA-Z\s]` character without crossing a
newline, capture the maximal run, and return it with the rest of the text. -/
def capTail : List Char → Option (List Char × List Char)
| [] => none
| c :: cs =>
  if pyAlphaSpace c then some ((c :: cs).takeWhile pyAlphaSpace, (c :: cs).dropWhile pyAlphaSpace)
  else if c = '\n' then none
  else capTail cs

/-- Model of `.*?(?:ALTS).*?([a-zA-Z\s]+)`: lazily seek an occurrence of one
of the literals (without crossing a newline), then a capture; on capture
failure backtrack to a later occurrence. -/
def seekAltThenCap (alts : List String) : List Char → Option (List Char × List Char)
| [] => none
| c :: cs =>
  match matchAltAt alts (c :: cs) with
  | some n =>
    match capTail ((c :: cs).drop n) with
    | some r => some r
    | none => if c = '\n' then none else seekAltThenCap alts cs
  | none => if c = '\n' then none else seekAltThenCap alts cs

/-- Model of `.*?(?:ALTS)`: lazily seek an occurrence of one of the literals
without crossing a newline; return (offset, match length). -/
def seekAltIdx (alts : List String) : List Char → Option (Nat × Nat)
| [] => none
| c :: cs =>
  match matchAltAt alts (c :: cs) with
  | some m => some (0, m)
  | none => if c = '\n' then none else (seekAltIdx alts cs).map (fun p => (p.1 + 1, p.2))

/-- `re.findall` for patterns `(?:A1).*?(?:A2).*?([a-zA-Z\s]+)` (captures). -/
def findallA (alts1 alts2 : List String) : Nat → List Char → List (List Char)
| 0, _ => []
| _ + 1, [] => []
| fuel + 1, c :: cs =>
  match matchAltAt alts1 (c :: cs) with
  | some n =>
    match seekAltThenCap alts2 ((c :: cs).drop n) with
    | some (cap, rest) => cap :: findallA alts1 alts2 fuel rest
    | none => findallA alts1 alts2 fuel cs
  | none => findallA alts1 alts2 fuel cs

/-- `re.findall` for patterns `(?:A).*?([a-zA-Z\s]+)` (captures). -/
def findallB (alts : List String) : Nat → List Char → List (List Char)
| 0, _ => []
| _ + 1, [] => []
| fuel + 1, c :: cs =>
  match matchAltAt alts (c :: cs) with
  | some n =>
    match capTail ((c :: cs).drop n) with
    | some (cap, rest) => cap :: findallB alts fuel rest
    | none => findallB alts fuel cs
  | none => findallB alts fuel cs

/-- `re.findall` for a bare literal alternation `(?:A)` (no capture group:
the whole matches are returned). -/
def findallC (alts : List String) : Nat → List Char → List (List Char)
| 0, _ => []
| _ + 1, [] => []
| fuel + 1, c :: cs =>
  match matchAltAt alts (c :: cs) with
  | some n => (c :: cs).take n :: findallC alts fuel ((c :: cs).drop n)
  | none => findallC alts fuel cs

/-- `re.findall` for patterns `(?:A1).*?(?:A2)` with no capture group: the
whole match, from the first literal through the second, is returned. -/
def findallE (alts1 alts2 : List String) : Nat → List Char → List (List Char)
| 0, _ => []
| _ + 1, [] => []
| fuel + 1, c :: cs =>
  match matchAltAt alts1 (c :: cs) with
  | some n =>
    match seekAltIdx alts2 ((c :: cs).drop n) with
    | some (i, m) =>
      (c :: cs).take (n + i + m) :: findallE alts1 alts2 fuel ((c :: cs).drop (n + i + m))
    | none => findallE alts1 alts2 fuel cs
  | none => findallE alts1 alts2 fuel cs

/-- First match of `LIT\s+([a-zA-Z\s]+)` (used by the `start with`/`end with`
anchor patterns; only `matches[0]` is consumed by the source).  The greedy
`\s+` backtracks one character into the capture when the run is not followed
by a letter. -/
def findFirstD (lit : String) : Nat → List Char → Option (List Char)
| 0, _ => none
| _ + 1, [] => none
| fuel + 1, c :: cs =>
  if startsWithL lit.data (c :: cs) then
    let r := (c :: cs).drop lit.data.length
    let w := (r.takeWhile pySpace).length
    if w = 0 then findFirstD lit fuel cs
    else
      let cap := (r.drop w).takeWhile pyAlphaSpace
      if cap ≠ [] then some cap
      else if 2 ≤ w then some [((r.take w).getLastD ' ')]
      else findFirstD lit fuel cs
  else findFirstD lit fuel cs

/-- Apostrophe character (U+0027), used to build the negation literals. -/
def apos : Char := Char.ofNat 39

def sDont : String := "don" ++ apos.toString ++ "t"

def sDontLike : String := sDont ++ " like"

def sDontWant : String := sDont ++ " want"

/-- `genre_keywords` table of `_parse_preference_text` (insertion order). -/
def genreKeywords : List (String × List String) :=
  [("jazz", ["jazz", "swing", "bebop", "fusion"]),
   ("blues", ["blues", "bluesy"]),
   ("classical", ["classical", "baroque", "romantic", "chamber"]),
   ("rock", ["rock", "pop", "alternative"]),
   ("folk", ["folk", "acoustic", "traditional"]),
   ("country", ["country", "bluegrass"]),
   ("electronic", ["electronic", "edm", "techno"]),
   ("latin", ["latin", "salsa", "bossa nova", "samba"])]

/-- `instrument_keywords` table of `_parse_preference_text`. -/
def instrumentKeywords : List (String × List String) :=
  [("piano", ["piano", "keyboard", "keys"]),
   ("guitar", ["guitar", "acoustic guitar", "electric guitar"]),
   ("violin", ["violin", "fiddle"]),
   ("cello", ["cello"]),
   ("viola", ["viola"]),
   ("flute", ["flute"]),
   ("clarinet", ["clarinet"]),
   ("saxophone", ["saxophone", "sax", "alto sax", "tenor sax"]),
   ("trumpet", ["trumpet"]),
   ("drums", ["drums", "drum set", "percussion"]),
   ("bass", ["bass", "bass guitar", "upright bass"]),
   ("voice", ["voice", "vocal", "singer", "singing"])]

/-- Composer-name alternation of the third `composer_patterns` entry. -/
def composerNames7 : List String :=
  ["miles davis", "john coltrane", "beethoven", "mozart", "bach", "chopin", "debussy"]

/-- Composer-name list used by the avoid patterns and the negation window. -/
def composerNames9 : List String :=
  ["miles davis", "john coltrane", "beethoven", "mozart", "bach", "chopin", "debussy",
   "herbie hancock", "thelonious monk"]

def beginnerWords : List String := ["beginner", "starting", "new to", "learning"]

def advancedWords : List String := ["advanced", "expert", "professional", "experienced"]

def professionalWords : List String := ["expert", "master", "virtuoso"]

def negativeWords : List String := ["no", "avoid", sDont, "hate", "dislike", "not"]

/-- Strip each capture, keep those longer than 2 characters (the
`[match.strip() for match in matches if len(match.strip()) > 2]`
comprehension). -/
def stripFilt (ms : List (List Char)) : List String :=
  ((ms.map stripL).filter (fun m => 2 < m.length)).map (fun l => String.mk l)

/-- Genre extraction: one table entry per matched keyword group. -/
def extractGenres (textL : List Char) : List String :=
  (genreKeywords.filter (fun gk => containsAny gk.2 textL)).map (·.1)

/-- Instrument extraction, same shape as genre extraction. -/
def extractInstruments (textL : List Char) : List String :=
  (instrumentKeywords.filter (fun ik => containsAny ik.2 textL)).map (·.1)

/-- Composer extraction: the three `composer_patterns`, each contributing its
stripped, length-filtered matches in order. -/
def extractComposers (textL : List Char) : List String :=
  stripFilt (findallA ["favorite", "love", "like"] ["composer", "artist", "musician"]
      (textL.length + 1) textL)
    ++ stripFilt (findallB ["composer", "artist", "musician"] (textL.length + 1) textL)
    ++ stripFilt (findallC composerNames7 (textL.length + 1) textL)

/-- Skill-level extraction: the if/elif chain over the keyword groups. -/
def extractSkill (textL : List Char) : String :=
  if containsAny beginnerWords textL then "beginner"
  else if containsAny advancedWords textL then "advanced"
  else if containsAny professionalWords textL then "professional"
  else "intermediate"

/-- Avoided-genre extraction: the two `avoid_patterns`. -/
def extractAvoidGenres (textL : List Char) : List String :=
  stripFilt (findallA ["avoid", sDontLike, "hate", "dislike"] ["genre", "music", "style"]
      (textL.length + 1) textL)
    ++ stripFilt (findallB ["not into", "not a fan of"] (textL.length + 1) textL)

/-- The negation-window pass: for each composer name present in the text,
inspect a 20-character window around its first occurrence for a negative
word; on a hit, append the title-cased name. -/
def windowComposers (textL : List Char) : List String :=
  composerNames9.filterMap (fun name =>
    if containsTok name.data textL then
      match firstOccurIdx name.data textL with
      | some pos =>
        let cstart := pos - 20
        let cend := min textL.length (pos + name.length + 20)
        let context := (textL.drop cstart).take (cend - cstart)
        if negativeWords.any (fun w => containsTok w.data context) then
          some (String.mk (pyTitle name.data))
        else none
      | none => none
    else none)

/-- Avoided-composer extraction: the three `avoid_composer_patterns` followed
by the negation-window pass. -/
def extractAvoidComposers (textL : List Char) : List String :=
  stripFilt (findallA ["avoid", sDontLike, "hate", "dislike"] ["composer", "artist", "musician"]
      (textL.length + 1) textL)
    ++ stripFilt (findallA ["not into", "not a fan of"] ["composer", "artist", "musician"]
      (textL.length + 1) textL)
    ++ stripFilt (findallE ["no", "avoid", sDontWant] composerNames9 (textL.length + 1) textL)
    ++ windowComposers textL

def fastWords : List String := ["fast", "upbeat", "energetic", "quick"]

def slowWords : List String := ["slow", "relaxed", "calm", "gentle"]

def moderateWords : List String := ["moderate", "medium", "balanced"]

/-- Tempo-preference extraction. -/
def extractTempo (textL : List Char) : Option String :=
  if containsAny fastWords textL then some "fast"
  else if containsAny slowWords textL then some "slow"
  else if containsAny moderateWords textL then some "moderate"
  else none

def energeticWords : List String := ["energetic", "exciting", "dynamic", "powerful"]

def relaxedWords : List String := ["relaxed", "calm", "peaceful", "serene"]

def dramaticWords : List String := ["dramatic", "intense", "emotional", "passionate"]

def happyWords : List String := ["happy", "cheerful", "uplifting", "joyful"]

/-- Mood-preference extraction. -/
def extractMood (textL : List Char) : Option String :=
  if containsAny energeticWords textL then some "energetic"
  else if containsAny relaxedWords textL then some "relaxed"
  else if containsAny dramaticWords textL then some "dramatic"
  else if containsAny happyWords textL then some "happy"
  else none

/-- Ordering-hint extraction: first pattern with a match wins, and only
`matches[0]` (stripped) is used. -/
def extractStartPref (textL : List Char) : Option String :=
  match findFirstD "start with" (textL.length + 1) textL with
  | some m => some (String.mk (stripL m))
  | none =>
    match findFirstD "begin with" (textL.length + 1) textL with
    | some m => some (String.mk (stripL m))
    | none =>
      match findFirstD "open with" (textL.length + 1) textL with
      | some m => some (String.mk (stripL m))
      | none =>
        match (findallB ["first"] (textL.length + 1) textL).head? with
        | some m => some (String.mk (stripL m))
        | none => none

def extractEndPref (textL : List Char) : Option String :=
  match findFirstD "end with" (textL.length + 1) textL with
  | some m => some (String.mk (stripL m))
  | none =>
    match findFirstD "finish with" (textL.length + 1) textL with
    | some m => some (String.mk (stripL m))
    | none =>
      match findFirstD "close with" (textL.length + 1) textL with
      | some m => some (String.mk (stripL m))
      | none =>
        match (findallB ["last"] (textL.length + 1) textL).head? with
        | some m => some (String.mk (stripL m))
        | none => none

def specificGenreWords : List String :=
  ["bebop", "blues", "ballad", "swing", "fusion", "hard bop", "cool jazz", "free jazz"]

def extractSpecificGenres (textL : List Char) : List String :=
  specificGenreWords.filter (fun g => containsTok g.data textL)

/-- Structured preference record produced by `_parse_preference_text`. -/
structure Preferences where
  favorite_genres : List String
  favorite_composers : List String
  instruments : List String
  skill_level : String
  avoid_genres : List String
  avoid_composers : List String
  tempo_preference : Option String
  mood_preference : Option String
  start_preference : Option String
  end_preference : Option String
  specific_genres : List String
deriving DecidableEq

/-- Model of `ChatSetlistService._parse_preference_text`. -/
def parse_preference_text (s : String) : Preferences :=
  let textL := lowerL s.data
  { favorite_genres := extractGenres textL
    favorite_composers := (extractComposers textL).take 5
    instruments := extractInstruments textL
    skill_level := extractSkill textL
    avoid_genres := (extractAvoidGenres textL).take 3
    avoid_composers := (extractAvoidComposers textL).take 3
    tempo_preference := extractTempo textL
    mood_preference := extractMood textL
    start_preference := extractStartPref textL
    end_preference := extractEndPref textL
    specific_genres := extractSpecificGenres textL }

/-- The all-default record: what `_parse_preference_text` returns when nothing
in the text resolves. -/
def defaultPreferences : Preferences :=
  { favorite_genres := []
    favorite_composers := []
    instruments := []
    skill_level := "intermediate"
    avoid_genres := []
    avoid_composers := []
    tempo_preference := none
    mood_preference := none
    start_preference := none
    end_preference := none
    specific_genres := [] }

/-- First-occurrence deduplication (model of iterating a `Counter` / a
Python dict in insertion order, and of the order-insensitive uses of
`list(set(xs))`). -/
def firstDedupGo (seen : List String) : List String → List String
| [] => []
| a :: l =>
  if seen.contains a then firstDedupGo seen l
  else a :: firstDedupGo (seen ++ [a]) l

def firstDedup (l : List String) : List String := firstDedupGo [] l

/-- One stored group response (`response_data` in
`handle_preference_response`); the timestamp is omitted as no embedded code
reads it. -/
structure PrefResponse where
  user_id : String
  username : String
  preference_text : String
  preferences : Preferences
deriving DecidableEq

/-- The `group_analysis` dict of `_analyze_group_preferences`.  The
`preferred_tempo` key is never set by the analysis (the source reads it with
`.get("preferred_tempo", "moderate")`), so it is an `Option` left `none`. -/
structure GroupAnalysis where
  common_genres : List String
  common_composers : List String
  all_genres : List String
  all_composers : List String
  instruments : List String
  skill_levels : List String
  avoid_genres : List String
  avoid_composers : List String
  start_preferences : List String
  end_preferences : List String
  specific_genres : List String
  preferred_tempo : Option String
  compatibility_score : ℚ
  group_size : ℕ

/-- Elements occurring more than once, in first-occurrence order (the
`[x for x, count in Counter(xs).items() if count > 1]` pattern). -/
def commonOf (xs : List String) : List String :=
  (firstDedup xs).filter (fun x => 1 < xs.count x)

/-- Model of `ChatSetlistService._analyze_group_preferences`.  Python
truthiness on `prefs.get("start_preference")` skips both `None` and the
empty string. -/
def analyze_group_preferences (responses : List PrefResponse) : GroupAnalysis :=
  let allG := responses.flatMap (fun r => r.preferences.favorite_genres)
  let allC := responses.flatMap (fun r => r.preferences.favorite_composers)
  let allI := responses.flatMap (fun r => r.preferences.instruments)
  let skills := responses.map (fun r => r.preferences.skill_level)
  let avG := responses.flatMap (fun r => r.preferences.avoid_genres)
  let avC := responses.flatMap (fun r => r.preferences.avoid_composers)
  let starts := responses.filterMap (fun r =>
    match r.preferences.start_preference with
    | some s => if s = "" then none else some s
    | none => none)
  let ends := responses.filterMap (fun r =>
    match r.preferences.end_preference with
    | some s => if s = "" then none else some s
    | none => none)
  let spec := responses.flatMap (fun r => r.preferences.specific_genres)
  let commonG := commonOf allG
  let commonC := commonOf allC
  { common_genres := commonG
    common_composers := commonC
    all_genres := firstDedup allG
    all_composers := firstDedup allC
    instruments := firstDedup allI
    skill_levels := firstDedup skills
    avoid_genres := firstDedup avG
    avoid_composers := firstDedup avC
    start_preferences := starts
    end_preferences := ends
    specific_genres := firstDedup spec
    preferred_tempo := none
    compatibility_score :=
      if (9 / 10 : ℚ) ≤ 1 / 2 + commonG.length * (1 / 10 : ℚ) + commonC.length * (1 / 10 : ℚ)
        then 9 / 10
        else 1 / 2 + commonG.length * (1 / 10 : ℚ) + commonC.length * (1 / 10 : ℚ)
    group_size := responses.length }

/-- A candidate piece of the chat-service catalogs.  `collaborative_score`
and `collaborative_reasoning` model the keys added by
`_filter_pieces_by_preferences` / `_select_pieces_for_duration`. -/
structure CPiece where
  title : String
  composer : String
  duration_minutes : Int
  genre : String
  style : String
  difficulty : String
  collaborative_score : Int
  collaborative_reasoning : String
deriving DecidableEq

/-- Stable descending sort by a rational key (model of CPython
`list.sort(key=..., reverse=True)`, which is stable): insertion sort with
the relation "the right key is at most the left key". -/
def sortByDesc (key : CPiece → Int) (l : List CPiece) : List CPiece :=
  l.insertionSort (fun a b => key b ≤ key a)

/-- The per-piece body of the `_filter_pieces_by_preferences` loop: `none`
for a vetoed piece (an avoided genre or composer occurs, as a lowercased
substring, in the piece's genre or composer), otherwise the piece with its
collaborative score boosts attached. -/
def scorePiece (ga : GroupAnalysis) (piece : CPiece) : Option CPiece :=
  if ga.avoid_genres.any
      (fun ag => containsTok (lowerL ag.data) (lowerL piece.genre.data)) then none
  else if ga.avoid_composers.any
      (fun ac => containsTok (lowerL ac.data) (lowerL piece.composer.data)) then none
  else
    let s1 : Int := if ga.common_genres.any
      (fun g => containsTok (lowerL g.data) (lowerL piece.genre.data)) then 3 else 0
    let s2 : Int := if ga.common_composers.any
      (fun c => containsTok (lowerL c.data) (lowerL piece.composer.data)) then 5 else 0
    let s3 : Int := if ga.skill_levels.contains piece.difficulty then 2 else 0
    let s4 : Int :=
      if (ga.preferred_tempo.getD "moderate" = "fast" ∧ piece.style = "up-tempo")
          ∨ (ga.preferred_tempo.getD "moderate" = "slow" ∧ piece.style = "ballad")
          ∨ (ga.preferred_tempo.getD "moderate" = "moderate" ∧ piece.style = "medium")
        then 1 else 0
    some { piece with collaborative_score := s1 + s2 + s3 + s4 }

/-- Model of `ChatSetlistService._filter_pieces_by_preferences`: drop pieces
whose (lowercased) genre or composer contains any avoided entry as a
substring, attach the collaborative score boosts, and sort by score
descending. -/
def filter_pieces_by_preferences (pieces : List CPiece) (ga : GroupAnalysis) : List CPiece :=
  sortByDesc (fun p => p.collaborative_score) (pieces.filterMap (scorePiece ga))

/-- For one ordering hint, the first piece in the (sorted) pool whose genre
contains it as a substring. -/
def firstGenreMatch (pref : String) (pieces : List CPiece) : Option CPiece :=
  pieces.find? (fun p => containsTok (lowerL pref.data) (lowerL p.genre.data))

/-- One reserved candidate per hint, skipping hints with no match. -/
def collectHintPieces (prefs : List String) (pieces : List CPiece) : List CPiece :=
  prefs.filterMap (fun pref => firstGenreMatch pref pieces)

/-- Model of `ChatSetlistService._generate_piece_reasoning`. -/
def generate_piece_reasoning (piece : CPiece) (ga : GroupAnalysis)
    (position total : ℕ) : String :=
  let r1 : List String :=
    if position = 0 ∧ ga.start_preferences ≠ [] then
      match ga.start_preferences.find?
          (fun pref => containsTok (lowerL pref.data) (lowerL piece.genre.data)) with
      | some pref => ["opens with " ++ pref ++ " as requested"]
      | none => []
    else []
  let r2 : List String :=
    if position = total - 1 ∧ ga.end_preferences ≠ [] then
      match ga.end_preferences.find?
          (fun pref => containsTok (lowerL pref.data) (lowerL piece.genre.data)) with
      | some pref => ["closes with " ++ pref ++ " as requested"]
      | none => []
    else []
  let r3 : List String :=
    if 0 < piece.collaborative_score then ["matches group preferences"] else []
  let r4 : List String :=
    if ga.common_genres.contains piece.genre then
      ["popular " ++ piece.genre ++ " choice"] else []
  let r5 : List String :=
    if ga.common_composers.contains piece.composer then
      ["group favorite composer " ++ piece.composer] else []
  let r6 : List String :=
    if ga.skill_levels.contains piece.difficulty then
      ["appropriate for " ++ piece.difficulty ++ " skill level"] else []
  let reasons := r1 ++ r2 ++ r3 ++ r4 ++ r5 ++ r6
  if reasons ≠ [] then "Selected because: " ++ String.intercalate ", " reasons
  else "Classic piece that works well for group performance"

/-- The final `for i, piece in enumerate(selected_pieces)` loop of
`_select_pieces_for_duration`: attach the per-piece reasoning, indexed from
`i`, with `total` the length of the whole selection. -/
def attachReasoning (ga : GroupAnalysis) (total : ℕ) : ℕ → List CPiece → List CPiece
| _, [] => []
| i, p :: ps =>
  { p with collaborative_reasoning := generate_piece_reasoning p ga i total }
    :: attachReasoning ga total (i + 1) ps

/-- The middle loop of `_select_pieces_for_duration`: take pieces in order,
skipping pieces reserved for the end slot, while the cumulative duration
stays within 90 percent of the target (`10 * cum ≤ 9 * target` models
`cum <= target * 0.9`); a non-fitting piece stops the loop (`break`). -/
def middleGo (endPieces : List CPiece) (target : Int) :
    List CPiece → Int → List CPiece × Int
| [], cur => ([], cur)
| p :: ps, cur =>
  if endPieces ≠ [] ∧ endPieces.contains p then middleGo endPieces target ps cur
  else if 10 * (cur + p.duration_minutes) ≤ 9 * target then
    let r := middleGo endPieces target ps (cur + p.duration_minutes)
    (p :: r.1, r.2)
  else ([], cur)

/-- The start-hint stage of `_select_pieces_for_duration`: reserve the first
collected start candidate for position 0 when its own duration is within 90
percent of the target, removing it from the pool; returns (selected so far,
cumulative duration, remaining pool). -/
def startStage (pieces : List CPiece) (target : Int) (startPieces : List CPiece) :
    List CPiece × Int × List CPiece :=
  match startPieces.head? with
  | some sp =>
    if 10 * sp.duration_minutes ≤ 9 * target then
      ([sp], sp.duration_minutes, pieces.erase sp)
    else ([], 0, pieces)
  | none => ([], 0, pieces)

/-- The end-hint stage of `_select_pieces_for_duration`: append the first
collected end candidate when the running total is strictly below 90 percent
of the target and the candidate still fits. -/
def endStage (endPieces : List CPiece) (target cur : Int) (selected : List CPiece) :
    List CPiece :=
  if endPieces ≠ [] ∧ 10 * cur < 9 * target then
    match endPieces.head? with
    | some ep =>
      if 10 * (cur + ep.duration_minutes) ≤ 9 * target then selected ++ [ep]
      else selected
    | none => selected
  else selected

/-- The selection of `_select_pieces_for_duration` before the reasoning
annotations: start stage, then the greedy middle loop, then the end stage. -/
def selectCore (pieces : List CPiece) (target : Int) (ga : GroupAnalysis) :
    List CPiece :=
  let endPieces := collectHintPieces ga.end_preferences pieces
  let s1 := startStage pieces target (collectHintPieces ga.start_preferences pieces)
  let mids := middleGo endPieces target s1.2.2 s1.2.1
  endStage endPieces target mids.2 (s1.1 ++ mids.1)

/-- Model of `ChatSetlistService._select_pieces_for_duration` (the input is
the filtered, score-sorted pool). -/
def select_pieces_for_duration (pieces : List CPiece) (target : Int)
    (ga : GroupAnalysis) : List CPiece :=
  attachReasoning ga (selectCore pieces target ga).length 0 (selectCore pieces target ga)

/-- Session status of an active setlist request (`status` strings
`"collecting_preferences"` / `"completed"` in the source). -/
inductive SessStatus where
| collecting
| completed
deriving DecidableEq

/-- The per-session state mutated by `handle_preference_response`:
the request's `group_member_ids` and `responses_received` lists together with
the `group_responses` store.  Setlist payload fields are omitted: no embedded
claim reads them, and on typed records `_generate_collaborative_setlist`
always succeeds (its `except` branch, which would leave the status
unchanged, is unreachable), so completion reduces to the status update. -/
structure SessionState where
  group_member_ids : List String
  responses_received : List String
  group_responses : List PrefResponse
  status : SessStatus

/-- Model of `ChatSetlistService.handle_preference_response` for a known
session id: parse the text, append the response and the responder id, and
complete when `set(group_member_ids) - set(responses_received)` is empty. -/
def submit_response (st : SessionState) (user_id username text : String) : SessionState :=
  let prefs := parse_preference_text text
  let responses := st.group_responses ++ [⟨user_id, username, text, prefs⟩]
  let received := st.responses_received ++ [user_id]
  let remaining := st.group_member_ids.filter (fun m => !(received.contains m))
  { group_member_ids := st.group_member_ids
    responses_received := received
    group_responses := responses
    status := if remaining.isEmpty then .completed else st.status }

/-- One submission: (participant id, display name, raw preference text). -/
abbrev Submission := String × String × String

/-- The fresh session created for `group_member_ids = members`, before any
response arrives. -/
def initialSession (members : List String) : SessionState :=
  ⟨members, [], [], .collecting⟩

/-- Run a whole sequence of `submit_response` calls against a fresh session. -/
def runSession (members : List String) (subs : List Submission) : SessionState :=
  subs.foldl (fun st s => submit_response st s.1 s.2.1 s.2.2) (initialSession members)

/-- Requirements dict of the multi-agent coordinator, with the keys the
embedded code reads (all present, as built by the service callers). -/
structure Requirements where
  concert_type : String
  duration_minutes : Int
  instruments : List String
  skill_level : String
deriving DecidableEq

/-- A coordinator-side piece (the dict shape produced by the agents). -/
structure APiece where
  title : String
  composer : String
  duration_minutes : Int
  difficulty_level : String
  key_signature : String
  instruments : List String
  genre : String
  reasoning : String
deriving DecidableEq

/-- An advisor evaluation dict, restricted to the fields the coordinator
reads: the four `score_fields` probed by `_extract_score_from_evaluation`
(`Option` models key presence) and the `recommendation` fallback. -/
structure Evaluation where
  recommendation : String
  confidence : Option ℚ
  technical_score : Option ℚ
  flow_score : Option ℚ
  musical_fit : Option ℚ
deriving DecidableEq

/-- Model of `MultiAgentCoordinator._extract_score_from_evaluation`: return
the first present numeric field among `confidence`, `technical_score`,
`flow_score`, `musical_fit`; otherwise map the recommendation to 8/5/2. -/
def extract_score_from_evaluation (e : Evaluation) : ℚ :=
  match e.confidence with
  | some v => v
  | none =>
    match e.technical_score with
    | some v => v
    | none =>
      match e.flow_score with
      | some v => v
      | none =>
        match e.musical_fit with
        | some v => v
        | none =>
          if e.recommendation = "include" then 8
          else if e.recommendation = "modify" then 5
          else 2

/-- Running entry of the `piece_scores` dict in `_score_pieces`. -/
structure PieceScoreData where
  piece : APiece
  scores : List (String × ℚ)
  total_score : ℚ
  evaluation_count : ℕ
deriving DecidableEq

/-- Upsert into an association list, keeping the position of an existing key
(Python dict update semantics). -/
def upsertAssoc (k : String) (v : ℚ) : List (String × ℚ) → List (String × ℚ)
| [] => [(k, v)]
| (k', v') :: rest => if k' = k then (k, v) :: rest else (k', v') :: upsertAssoc k v rest

/-- One evaluation record flattened out of `evaluation_results`:
(agent name, evaluated piece, evaluation). -/
abbrev EvalEntry := String × APiece × Evaluation

/-- Process one evaluation entry into the `piece_scores` association list
(keyed by title, insertion order preserved, as for a Python dict). -/
def insertEval (acc : List (String × PieceScoreData)) (t : EvalEntry) :
    List (String × PieceScoreData) :=
  match acc with
  | [] =>
    [(t.2.1.title,
      { piece := t.2.1
        scores := [(t.1, extract_score_from_evaluation t.2.2)]
        total_score := extract_score_from_evaluation t.2.2
        evaluation_count := 1 })]
  | (k, sd) :: rest =>
    if k = t.2.1.title then
      (k, { sd with
              scores := upsertAssoc t.1 (extract_score_from_evaluation t.2.2) sd.scores
              total_score := sd.total_score + extract_score_from_evaluation t.2.2
              evaluation_count := sd.evaluation_count + 1 }) :: rest
    else (k, sd) :: insertEval rest t

/-- The nested loops of `_score_pieces`, flattened: agents in dict order,
each agent's evaluations in list order. -/
def flattenEvaluations (results : List (String × List (APiece × Evaluation))) :
    List EvalEntry :=
  results.flatMap (fun ae => ae.2.map (fun pe => (ae.1, pe.1, pe.2)))

def scoreFold (acc : List (String × PieceScoreData)) :
    List EvalEntry → List (String × PieceScoreData)
| [] => acc
| t :: ts => scoreFold (insertEval acc t) ts

/-- A scored piece with its derived `average_score`. -/
structure ScoredPiece where
  piece : APiece
  scores : List (String × ℚ)
  total_score : ℚ
  evaluation_count : ℕ
  average_score : ℚ
deriving DecidableEq

/-- Model of `MultiAgentCoordinator._score_pieces`: accumulate per-title
totals and counts, then attach `average_score = total / count`
(0 for an entry with no evaluations, which cannot arise). -/
def score_pieces (results : List (String × List (APiece × Evaluation))) :
    List (String × ScoredPiece) :=
  (scoreFold [] (flattenEvaluations results)).map (fun ksd =>
    (ksd.1,
     { piece := ksd.2.piece
       scores := ksd.2.scores
       total_score := ksd.2.total_score
       evaluation_count := ksd.2.evaluation_count
       average_score :=
         if 0 < ksd.2.evaluation_count then
           ksd.2.total_score / ksd.2.evaluation_count
         else 0 }))

/-- Stable descending sort by `average_score` (model of
`sorted(..., key=lambda x: x["average_score"], reverse=True)`, which is
stable). -/
def sortScoredDesc (l : List ScoredPiece) : List ScoredPiece :=
  l.insertionSort (fun a b => b.average_score ≤ a.average_score)

/-- The greedy accept loop of `_select_pieces_for_setlist`: skip pieces that
do not fit the `target + 5` buffer, stop once 8 pieces are selected. -/
def selectGo (target : Int) : List ScoredPiece → Int → ℕ → List APiece
| [], _, _ => []
| sp :: rest, total, count =>
  let d := sp.piece.duration_minutes
  if total + d ≤ target + 5 then
    if 8 ≤ count + 1 then [sp.piece]
    else sp.piece :: selectGo target rest (total + d) (count + 1)
  else selectGo target rest total count

/-- Model of `MultiAgentCoordinator._select_pieces_for_setlist`. -/
def select_pieces_for_setlist (pieceScores : List (String × ScoredPiece))
    (req : Requirements) : List APiece :=
  selectGo req.duration_minutes (sortScoredDesc (pieceScores.map (·.2))) 0 0

/-- Model of `MultiAgentCoordinator._find_opening_piece`. -/
def find_opening_piece (pieces : List APiece) : Option APiece :=
  match pieces.find? (fun p =>
      p.difficulty_level = "beginner" ∨ p.difficulty_level = "intermediate") with
  | some p => some p
  | none => pieces.head?

/-- Model of `MultiAgentCoordinator._order_pieces_for_flow`. -/
def order_pieces_for_flow (pieces : List APiece) : List APiece :=
  if pieces = [] then pieces
  else
    match find_opening_piece pieces with
    | some p => p :: pieces.erase p
    | none => pieces

/-- The metadata produced by `_generate_setlist_metadata`. -/
structure SetlistMetadata where
  title : String
  total_duration : Int
  design_reasoning : String
deriving DecidableEq

def sumDurationsA (pieces : List APiece) : Int :=
  (pieces.map (fun p => p.duration_minutes)).sum

/-- Model of `MultiAgentCoordinator._generate_setlist_metadata` (string
title-casing of the concert type is abstracted by `pyTitle`). -/
def generate_setlist_metadata (pieces : List APiece) (req : Requirements) :
    SetlistMetadata :=
  let total := sumDurationsA pieces
  let ctitle := String.mk (pyTitle req.concert_type.data)
  let title :=
    match pieces.head? with
    | some p => ctitle ++ " Program featuring " ++ p.composer
    | none => ctitle ++ " Program"
  let parts :=
    ["Designed for " ++ req.skill_level ++ " level performers",
     "Duration: " ++ toString total ++ " minutes",
     "Instruments: " ++ String.intercalate ", " req.instruments]
  let parts :=
    if pieces ≠ [] then
      parts ++ ["Features " ++ toString pieces.length ++ " carefully selected pieces"]
    else parts
  { title := title
    total_duration := total
    design_reasoning := String.intercalate "; " parts }

/-- The final setlist dict assembled by `_phase_synthesis`. -/
structure Setlist where
  title : String
  total_duration : Int
  pieces : List APiece
  design_reasoning : String
deriving DecidableEq

/-- The `try` body of `_phase_synthesis`: score, select, order, and attach
metadata. -/
def phase_synthesis_body (results : List (String × List (APiece × Evaluation)))
    (req : Requirements) : Setlist :=
  let scored := score_pieces results
  let selected := select_pieces_for_setlist scored req
  let ordered := order_pieces_for_flow selected
  let md := generate_setlist_metadata ordered req
  { title := md.title
    total_duration := md.total_duration
    pieces := ordered
    design_reasoning := md.design_reasoning }

/-- Model of `MultiAgentCoordinator._create_fallback_setlist`. -/
def create_fallback_setlist (req : Requirements) : Setlist :=
  { title := req.concert_type ++ " Program"
    total_duration := 30
    pieces :=
      [{ title := "Sample Piece 1"
         composer := "Sample Composer"
         duration_minutes := 5
         difficulty_level := req.skill_level
         key_signature := "C major"
         instruments := req.instruments
         genre := "classical"
         reasoning := "Fallback suggestion" }]
    design_reasoning := "Fallback setlist created due to synthesis error" }

/-- Model of the `try`/`except` of `_phase_synthesis`: a raised exception in
phase 4 (the `Except.error` case) resolves to the hard-coded fallback. -/
def phase_synthesis (body : Except String Setlist) (req : Requirements) : Setlist :=
  match body with
  | .ok s => s
  | .error _ => create_fallback_setlist req

/-- Model of `MultiAgentCoordinator._collect_unique_pieces`: concatenate the
agents' suggestion lists in dict order, keeping the first piece for each
non-empty title. -/
def collectUniqueGo (seen : List String) :
    List APiece → List APiece
| [] => []
| p :: ps =>
  if p.title ≠ "" ∧ ¬ seen.contains p.title then
    p :: collectUniqueGo (seen ++ [p.title]) ps
  else collectUniqueGo seen ps

def collect_unique_pieces (suggestions : List (String × List APiece)) : List APiece :=
  collectUniqueGo [] (suggestions.flatMap (·.2))

/-- `MusicCuratorAgent._get_fallback_suggestions`: returned whenever the
curator's LLM call fails. -/
def curatorFallbackSuggestions (req : Requirements) : List APiece :=
  [{ title := "Sample Piece 1"
     composer := "Sample Composer"
     duration_minutes := 5
     difficulty_level := req.skill_level
     key_signature := "C major"
     instruments := req.instruments
     genre := "classical"
     reasoning := "Fallback suggestion" }]

/-- `TechnicalAdvisorAgent._get_fallback_technical_suggestions`. -/
def technicalFallbackSuggestions (req : Requirements) : List APiece :=
  [{ title := "Technical Fallback Piece"
     composer := "Technical Composer"
     duration_minutes := 5
     difficulty_level := req.skill_level
     key_signature := "C major"
     instruments := req.instruments
     genre := "classical"
     reasoning := "Technically safe choice" }]

/-- `ProgramFlowAgent._get_fallback_flow_suggestions`. -/
def flowFallbackSuggestions (req : Requirements) : List APiece :=
  [{ title := "Flow Fallback Piece"
     composer := "Flow Composer"
     duration_minutes := 5
     difficulty_level := req.skill_level
     key_signature := "C major"
     instruments := req.instruments
     genre := "classical"
     reasoning := "Safe choice for program flow" }]

/-- `MusicCuratorAgent._get_default_evaluation`, restricted to the fields
the coordinator reads: recommendation "include", confidence 0.5,
technical_score 5, musical_fit 5 (no flow_score key). -/
def curatorDefaultEvaluation : Evaluation :=
  { recommendation := "include"
    confidence := some (1 / 2)
    technical_score := some 5
    flow_score := none
    musical_fit := some 5 }

/-- `TechnicalAdvisorAgent._get_default_technical_evaluation` (its
`technical_difficulty_score` key is not one of the coordinator's
`score_fields`, so only `confidence` is relevant). -/
def technicalDefaultEvaluation : Evaluation :=
  { recommendation := "include"
    confidence := some (1 / 2)
    technical_score := none
    flow_score := none
    musical_fit := none }

/-- `ProgramFlowAgent._get_default_flow_evaluation`. -/
def flowDefaultEvaluation : Evaluation :=
  { recommendation := "include"
    confidence := some (1 / 2)
    technical_score := none
    flow_score := some 5
    musical_fit := none }

/-- The `design_setlist` pipeline in the scenario in which every external
text-completion call fails.  Each agent's `analyze_requirements` is pure
(its result is unused by the suggestion parsers), each `suggest_pieces`
catches the failure and returns its built-in fallback list, and each
`evaluate_piece` catches the failure and returns its default evaluation, so
the phases reduce to the composition below. -/
def designSetlistAllLLMFail (req : Requirements) : Setlist :=
  let suggestions :=
    [("curator", curatorFallbackSuggestions req),
     ("technical", technicalFallbackSuggestions req),
     ("flow", flowFallbackSuggestions req)]
  let allPieces := collect_unique_pieces suggestions
  let evaluations :=
    [("curator", allPieces.map (fun p => (p, curatorDefaultEvaluation))),
     ("technical", allPieces.map (fun p => (p, technicalDefaultEvaluation))),
     ("flow", allPieces.map (fun p => (p, flowDefaultEvaluation)))]
  phase_synthesis_body evaluations req

/-- Participant ids of a submission sequence. -/
def subIds (subs : List Submission) : List String := subs.map (·.1)

/-- The stored response for a submission (what `handle_preference_response`
appends to `group_responses`). -/
def mkResponse (s : Submission) : PrefResponse :=
  ⟨s.1, s.2.1, s.2.2, parse_preference_text s.2.2⟩

/-- Total duration of a chat-service selection. -/
def sumDurationsC (pieces : List CPiece) : Int :=
  (pieces.map (fun p => p.duration_minutes)).sum

/-- Erase the reasoning annotation (used to compare selections up to the
rationale text attached at the very end of the selection). -/
def stripReasoning (p : CPiece) : CPiece :=
  { p with collaborative_reasoning := "" }

/-- All extracted scores recorded for a given title across
`evaluation_results`, in processing order. -/
def gatherScores (results : List (String × List (APiece × Evaluation)))
    (title : String) : List ℚ :=
  (flattenEvaluations results).filterMap (fun t =>
    if t.2.1.title = title then some (extract_score_from_evaluation t.2.2) else none)

/-- Arithmetic mean of a list of rationals. -/
def meanOf (l : List ℚ) : ℚ := l.sum / l.length


/-! ## Supporting lemmas: collection session -/

def coversB (members received : List String) : Bool :=
  members.all (fun m => received.contains m)

def processSubs (st : SessionState) (subs : List Submission) : SessionState :=
  subs.foldl (fun st s => submit_response st s.1 s.2.1 s.2.2) st

theorem contains_iff (l : List String) (a : String) : l.contains a = true ↔ a ∈ l := by
  simp [List.contains, List.elem_iff]

theorem coversB_iff (members received : List String) :
    coversB members received = true ↔ ∀ m ∈ members, m ∈ received := by
  simp [coversB, List.all_eq_true, List.contains, List.elem_iff]

theorem coversB_mono {members r1 r2 : List String}
    (hsub : ∀ m, m ∈ r1 → m ∈ r2) (h : coversB members r1 = true) :
    coversB members r2 = true := by
  rw [coversB_iff] at h ⊢
  exact fun m hm => hsub m (h m hm)

theorem submit_response_status (st : SessionState) (u n t : String) :
    (submit_response st u n t).status
      = if coversB st.group_member_ids (st.responses_received ++ [u]) then
          SessStatus.completed
        else st.status := by
  show (if (st.group_member_ids.filter
        fun m => !((st.responses_received ++ [u]).contains m)).isEmpty then _ else _) = _
  by_cases h : coversB st.group_member_ids (st.responses_received ++ [u]) = true
  · rw [if_pos, if_pos h]
    rw [List.isEmpty_iff, List.filter_eq_nil_iff]
    rw [coversB_iff] at h
    intro m hm
    simp [contains_iff, h m hm]
  · rw [if_neg, if_neg h]
    rw [List.isEmpty_iff, List.filter_eq_nil_iff]
    rw [coversB_iff] at h
    push_neg at h
    obtain ⟨m, hm, hnot⟩ := h
    intro hall
    have := hall m hm
    simp [contains_iff] at this
    apply hnot
    simp only [List.mem_append, List.mem_singleton]
    tauto

theorem submit_response_members (st : SessionState) (u n t : String) :
    (submit_response st u n t).group_member_ids = st.group_member_ids := rfl

theorem submit_response_received (st : SessionState) (u n t : String) :
    (submit_response st u n t).responses_received = st.responses_received ++ [u] := rfl

theorem processSubs_status (subs : List Submission) (st : SessionState) :
    (processSubs st subs).status
      = if subs ≠ [] ∧ coversB st.group_member_ids
            (st.responses_received ++ subIds subs) = true then
          SessStatus.completed
        else st.status := by
  induction subs generalizing st with
  | nil => simp [processSubs]
  | cons s ss ih =>
    have hstep : processSubs st (s :: ss)
        = processSubs (submit_response st s.1 s.2.1 s.2.2) ss := rfl
    rw [hstep, ih, submit_response_members, submit_response_received,
      submit_response_status]
    have hids : subIds (s :: ss) = s.1 :: subIds ss := rfl
    rw [hids]
    have happ : st.responses_received ++ [s.1] ++ subIds ss
        = st.responses_received ++ s.1 :: subIds ss := by simp
    by_cases hbig : coversB st.group_member_ids
        (st.responses_received ++ s.1 :: subIds ss) = true
    · rcases List.eq_nil_or_concat ss with hss | ⟨l, x, hss⟩
      · subst hss
        simp only [subIds, List.map_nil, List.append_nil] at hbig ⊢
        simp [hbig]
      · have hssne : ss ≠ [] := by simp [hss]
        rw [if_pos ⟨hssne, by rw [happ]; exact hbig⟩, if_pos ⟨by simp, hbig⟩]
    · have hsmall : ¬ coversB st.group_member_ids
          (st.responses_received ++ [s.1]) = true := by
        intro hc
        exact hbig (coversB_mono (fun m hm => by
          simp only [List.mem_append, List.mem_singleton, List.mem_cons] at hm ⊢
          tauto) hc)
      have h1 : ¬ (ss ≠ [] ∧ coversB st.group_member_ids
          (st.responses_received ++ [s.1] ++ subIds ss) = true) := by
        rw [happ]
        exact fun hc => hbig hc.2
      have h2 : ¬ ((s :: ss) ≠ [] ∧ coversB st.group_member_ids
          (st.responses_received ++ s.1 :: subIds ss) = true) :=
        fun hc => hbig hc.2
      rw [if_neg h1, if_neg h2, if_neg hsmall]

theorem processSubs_members (subs : List Submission) (st : SessionState) :
    (processSubs st subs).group_member_ids = st.group_member_ids := by
  induction subs generalizing st with
  | nil => rfl
  | cons s ss ih =>
    show (processSubs (submit_response st s.1 s.2.1 s.2.2) ss).group_member_ids = _
    rw [ih, submit_response_members]

theorem processSubs_received (subs : List Submission) (st : SessionState) :
    (processSubs st subs).responses_received = st.responses_received ++ subIds subs := by
  induction subs generalizing st with
  | nil => simp [processSubs, subIds]
  | cons s ss ih =>
    show (processSubs (submit_response st s.1 s.2.1 s.2.2) ss).responses_received = _
    rw [ih, submit_response_received]
    simp [subIds]

theorem submit_response_responses (st : SessionState) (u n t : String) :
    (submit_response st u n t).group_responses
      = st.group_responses ++ [mkResponse (u, n, t)] := rfl

theorem processSubs_responses (subs : List Submission) (st : SessionState) :
    (processSubs st subs).group_responses = st.group_responses ++ subs.map mkResponse := by
  induction subs generalizing st with
  | nil => simp [processSubs]
  | cons s ss ih =>
    show (processSubs (submit_response st s.1 s.2.1 s.2.2) ss).group_responses = _
    rw [ih, submit_response_responses]
    simp [mkResponse]

theorem runSession_status (members : List String) (subs : List Submission) :
    (runSession members subs).status
      = if subs ≠ [] ∧ coversB members (subIds subs) = true then
          SessStatus.completed
        else SessStatus.collecting := by
  have h := processSubs_status subs (initialSession members)
  simpa [initialSession, runSession, processSubs] using h

theorem coversB_congr {members A B : List String} (h : ∀ m, m ∈ A ↔ m ∈ B) :
    coversB members A = coversB members B := by
  cases hb : coversB members B with
  | true => exact coversB_mono (fun m hm => (h m).mpr hm) hb
  | false =>
    cases ha : coversB members A with
    | false => rfl
    | true =>
      exfalso
      have hx := coversB_mono (fun m hm => (h m).mp hm) ha
      rw [hb] at hx
      exact Bool.noConfusion hx

/-! ## Claim C1 -/

/-- Claim C1, counterexample: completion is not set-equality.  With required
set `{"a"}`, the trace in which a non-required participant `"b"` responds and
then `"a"` responds drives the session to Complete although the submitted-id
set `{"b","a"}` differs from the required set `{"a"}`. -/
theorem c1_counterexample :
    (runSession ["a"] [("b", "B", "jazz"), ("a", "A", "jazz")]).status
        = SessStatus.completed
  ∧ "b" ∈ (runSession ["a"] [("b", "B", "jazz"), ("a", "A", "jazz")]).responses_received
  ∧ "b" ∉ (["a"] : List String) := by
  refine ⟨?_, ?_, ?_⟩ <;> decide

/-- Claim C1 (amended): a session transitions to Complete iff the required
participant-id set is a SUBSET of the submitted-id set (ids outside the
required set are also recorded, so the submitted set may be a strict
superset); completion is independent of arrival order; and a resubmission by
a participant who already responded changes nothing about completion. -/
theorem c1_amended (members : List String) (subs subs' : List Submission) :
    (subs ≠ [] →
      ((runSession members subs).status = SessStatus.completed ↔
        ∀ m ∈ members, m ∈ subIds subs))
  ∧ (∀ p : Submission, p.1 ∈ subIds subs →
      (runSession members (subs ++ [p])).status = (runSession members subs).status)
  ∧ ((subIds subs).Perm (subIds subs') →
      (runSession members subs).status = (runSession members subs').status) := by
  refine ⟨?_, ?_, ?_⟩
  · intro hne
    rw [runSession_status]
    by_cases hc : coversB members (subIds subs) = true
    · rw [if_pos ⟨hne, hc⟩]
      exact ⟨fun _ => (coversB_iff _ _).mp hc, fun _ => rfl⟩
    · rw [if_neg (fun hx => hc hx.2)]
      constructor
      · intro h
        exact SessStatus.noConfusion h
      · intro hall
        exact absurd ((coversB_iff _ _).mpr hall) hc
  · intro p hp
    have hne : subs ≠ [] := by
      intro h
      subst h
      simp [subIds] at hp
    rw [runSession_status, runSession_status]
    have hids : subIds (subs ++ [p]) = subIds subs ++ [p.1] := by simp [subIds]
    have hcov : coversB members (subIds (subs ++ [p])) = coversB members (subIds subs) := by
      rw [hids]
      refine coversB_congr (fun m => ?_)
      simp only [List.mem_append, List.mem_singleton]
      constructor
      · rintro (hm | hm)
        · exact hm
        · rw [hm]; exact hp
      · exact Or.inl
    by_cases h : coversB members (subIds subs) = true
    · rw [if_pos ⟨by simp, hcov.trans h⟩, if_pos ⟨hne, h⟩]
    · rw [if_neg (fun hx => h (hcov.symm.trans hx.2)), if_neg (fun hx => h hx.2)]
  · intro hperm
    rw [runSession_status, runSession_status]
    have hlen : subs.length = subs'.length := by
      have := hperm.length_eq
      simpa [subIds] using this
    have hcov : coversB members (subIds subs) = coversB members (subIds subs') :=
      coversB_congr (fun m => hperm.mem_iff)
    by_cases h : subs = []
    · have h' : subs' = [] := by
        rw [← List.length_eq_zero, ← hlen, List.length_eq_zero]
        exact h
      subst h
      subst h'
      rfl
    · have h' : subs' ≠ [] := by
        intro hx
        apply h
        rw [← List.length_eq_zero, hlen, List.length_eq_zero]
        exact hx
      by_cases hc : coversB members (subIds subs) = true
      · rw [if_pos ⟨h, hc⟩, if_pos ⟨h', hcov ▸ hc⟩]
      · rw [if_neg (fun hx => hc hx.2), if_neg (fun hx => hc (by rw [hcov]; exact hx.2))]

/-- Claim C1 witness: the amended characterization applied to a concrete
two-member session, a concrete resubmission, and a concrete reordering. -/
theorem c1_amended_witness :
    (runSession ["a", "b"] [("a", "A", "x"), ("b", "B", "y")]).status
        = SessStatus.completed
  ∧ (runSession ["a", "b"]
        ([("a", "A", "x"), ("b", "B", "y")] ++ [("a", "A", "z")])).status
      = (runSession ["a", "b"] [("a", "A", "x"), ("b", "B", "y")]).status
  ∧ (runSession ["a", "b"] [("a", "A", "x"), ("b", "B", "y")]).status
      = (runSession ["a", "b"] [("b", "B", "y"), ("a", "A", "x")]).status := by
  refine ⟨?_, ?_, ?_⟩
  · exact ((c1_amended ["a", "b"] [("a", "A", "x"), ("b", "B", "y")] []).1
      (by decide)).mpr (by decide)
  · exact (c1_amended ["a", "b"] [("a", "A", "x"), ("b", "B", "y")] []).2.1
      ("a", "A", "z") (by decide)
  · exact (c1_amended ["a", "b"] [("a", "A", "x"), ("b", "B", "y")]
      [("b", "B", "y"), ("a", "A", "x")]).2.2 (by decide)

theorem mem_firstDedupGo (a : String) (l : List String) :
    ∀ seen, a ∈ firstDedupGo seen l ↔ (a ∈ l ∧ a ∉ seen) := by
  induction l with
  | nil => simp [firstDedupGo]
  | cons b l ih =>
    intro seen
    rw [firstDedupGo]
    by_cases hb : seen.contains b = true
    · rw [if_pos hb]
      rw [ih seen]
      have hbmem : b ∈ seen := (contains_iff seen b).mp hb
      simp only [List.mem_cons]
      constructor
      · rintro ⟨h1, h2⟩
        exact ⟨Or.inr h1, h2⟩
      · rintro ⟨h1 | h1, h2⟩
        · exact absurd (h1 ▸ hbmem) h2
        · exact ⟨h1, h2⟩
    · rw [if_neg hb]
      have hbmem : b ∉ seen := fun hx => hb ((contains_iff seen b).mpr hx)
      simp only [List.mem_cons, ih (seen ++ [b]), List.mem_append,
        List.mem_singleton]
      by_cases hab : a = b
      · subst hab
        simp [hbmem]
      · simp only [hab, false_or]
        tauto

theorem mem_firstDedup (a : String) (l : List String) : a ∈ firstDedup l ↔ a ∈ l := by
  rw [firstDedup, mem_firstDedupGo]
  simp

/-! ## Claim C5 -/

/-- Claim C5, counterexample: a resubmission by the same participant is
appended, not upserted.  After `"u1"` submits "jazz" twice, the aggregation
sees two records: `group_size` is 2 (not 1), and "jazz" is counted twice, so
it becomes a "common" genre — unlike the aggregation over only the last
submission. -/
theorem c5_counterexample :
    (analyze_group_preferences (runSession ["u1"]
        [("u1", "A", "jazz"), ("u1", "A", "jazz")]).group_responses).group_size = 2
  ∧ (analyze_group_preferences [mkResponse ("u1", "A", "jazz")]).group_size = 1
  ∧ "jazz" ∈ (analyze_group_preferences (runSession ["u1"]
        [("u1", "A", "jazz"), ("u1", "A", "jazz")]).group_responses).common_genres
  ∧ "jazz" ∉ (analyze_group_preferences [mkResponse ("u1", "A", "jazz")]).common_genres := by
  refine ⟨?_, ?_, ?_, ?_⟩ <;> decide

/-- Claim C5 (amended): `submit_response` appends the new record to the
stored response list (additive, never replacing); the downstream aggregation
counts every stored submission — its group size is the number of submissions,
and a genre contained in two submissions with the SAME participant id is
reported as "common". -/
theorem c5_amended (st : SessionState) (u n t : String) (r1 r2 : PrefResponse)
    (g : String) :
    (submit_response st u n t).group_responses
        = st.group_responses ++ [mkResponse (u, n, t)]
  ∧ (analyze_group_preferences (submit_response st u n t).group_responses).group_size
      = st.group_responses.length + 1
  ∧ (r1.user_id = r2.user_id → g ∈ r1.preferences.favorite_genres →
      g ∈ r2.preferences.favorite_genres →
      g ∈ (analyze_group_preferences [r1, r2]).common_genres) := by
  refine ⟨submit_response_responses st u n t, ?_, ?_⟩
  · rw [submit_response_responses]
    simp [analyze_group_preferences]
  · intro _ h1 h2
    show g ∈ commonOf ([r1, r2].flatMap fun r => r.preferences.favorite_genres)
    unfold commonOf
    apply List.mem_filter.mpr
    constructor
    · rw [mem_firstDedup]
      simp only [List.flatMap_cons, List.flatMap_nil, List.append_nil, List.mem_append]
      exact Or.inl h1
    · have c1 : 0 < r1.preferences.favorite_genres.count g := List.count_pos_iff.mpr h1
      have c2 : 0 < r2.preferences.favorite_genres.count g := List.count_pos_iff.mpr h2
      have hcnt : ([r1, r2].flatMap fun r => r.preferences.favorite_genres).count g
          = r1.preferences.favorite_genres.count g
            + r2.preferences.favorite_genres.count g := by
        simp [List.count_append]
      simp only [decide_eq_true_eq, hcnt]
      omega

/-- Claim C5 witness: the amended statement applied to a concrete state and a
concrete duplicated record. -/
theorem c5_amended_witness :
    "jazz" ∈ (analyze_group_preferences
        [mkResponse ("u1", "A", "jazz"), mkResponse ("u1", "A", "jazz")]).common_genres :=
  (c5_amended (initialSession ["u1"]) "u1" "A" "jazz"
      (mkResponse ("u1", "A", "jazz")) (mkResponse ("u1", "A", "jazz")) "jazz").2.2
    rfl (by decide) (by decide)

/-! ## Supporting lemmas: extractor -/

theorem containsTok_false_head {pat : List Char} {c : Char} {cs : List Char}
    (h : containsTok pat (c :: cs) = false) :
    startsWithL pat (c :: cs) = false ∧ containsTok pat cs = false := by
  rw [containsTok] at h
  exact ⟨(Bool.or_eq_false_iff.mp h).1, (Bool.or_eq_false_iff.mp h).2⟩

theorem matchAltAt_eq_none {alts : List String} {t : List Char}
    (h : ∀ a ∈ alts, startsWithL a.data t = false) : matchAltAt alts t = none := by
  induction alts with
  | nil => rfl
  | cons x rest ih =>
    rw [matchAltAt, if_neg]
    · exact ih (fun a ha => h a (List.mem_cons_of_mem x ha))
    · rw [h x (List.mem_cons_self x rest)]
      exact Bool.noConfusion

theorem containsAny_eq_false_iff (kws : List String) (t : List Char) :
    containsAny kws t = false ↔ ∀ k ∈ kws, containsTok k.data t = false := by
  simp [containsAny, List.any_eq_false]

theorem findallA_eq_nil {alts1 alts2 : List String} {fuel : Nat} {t : List Char}
    (h : ∀ a ∈ alts1, containsTok a.data t = false) :
    findallA alts1 alts2 fuel t = [] := by
  induction fuel generalizing t with
  | zero => rfl
  | succ n ih =>
    cases t with
    | nil => rfl
    | cons c cs =>
      rw [findallA, matchAltAt_eq_none (fun a ha => (containsTok_false_head (h a ha)).1)]
      exact ih (fun a ha => (containsTok_false_head (h a ha)).2)

theorem findallB_eq_nil {alts : List String} {fuel : Nat} {t : List Char}
    (h : ∀ a ∈ alts, containsTok a.data t = false) :
    findallB alts fuel t = [] := by
  induction fuel generalizing t with
  | zero => rfl
  | succ n ih =>
    cases t with
    | nil => rfl
    | cons c cs =>
      rw [findallB, matchAltAt_eq_none (fun a ha => (containsTok_false_head (h a ha)).1)]
      exact ih (fun a ha => (containsTok_false_head (h a ha)).2)

theorem findallC_eq_nil {alts : List String} {fuel : Nat} {t : List Char}
    (h : ∀ a ∈ alts, containsTok a.data t = false) :
    findallC alts fuel t = [] := by
  induction fuel generalizing t with
  | zero => rfl
  | succ n ih =>
    cases t with
    | nil => rfl
    | cons c cs =>
      rw [findallC, matchAltAt_eq_none (fun a ha => (containsTok_false_head (h a ha)).1)]
      exact ih (fun a ha => (containsTok_false_head (h a ha)).2)

theorem findallE_eq_nil {alts1 alts2 : List String} {fuel : Nat} {t : List Char}
    (h : ∀ a ∈ alts1, containsTok a.data t = false) :
    findallE alts1 alts2 fuel t = [] := by
  induction fuel generalizing t with
  | zero => rfl
  | succ n ih =>
    cases t with
    | nil => rfl
    | cons c cs =>
      rw [findallE, matchAltAt_eq_none (fun a ha => (containsTok_false_head (h a ha)).1)]
      exact ih (fun a ha => (containsTok_false_head (h a ha)).2)

theorem findFirstD_eq_none {lit : String} {fuel : Nat} {t : List Char}
    (h : containsTok lit.data t = false) : findFirstD lit fuel t = none := by
  induction fuel generalizing t with
  | zero => rfl
  | succ n ih =>
    cases t with
    | nil => rfl
    | cons c cs =>
      rw [findFirstD, if_neg]
      · exact ih (containsTok_false_head h).2
      · rw [(containsTok_false_head h).1]
        exact Bool.noConfusion

theorem windowComposers_eq_nil {t : List Char}
    (h : ∀ nm ∈ composerNames9, containsTok nm.data t = false) :
    windowComposers t = [] := by
  rw [windowComposers]
  apply List.filterMap_eq_nil_iff.mpr
  intro nm hnm
  simp [h nm hnm]

/-! ## Claim C10 -/

/-- Claim C10, counterexample: the skill level "professional" IS reachable.
The third branch also tests for "master" and "virtuoso", which are not
consumed by the preceding "advanced" branch, so the text "virtuoso" produces
skill level "professional" — refuting both that the output is confined to
beginner/intermediate/advanced and that the branch is dead. -/
theorem c10_counterexample :
    (parse_preference_text "virtuoso").skill_level = "professional" := by decide

/-- Claim C10 (amended): the extracted skill level is one of beginner,
intermediate, advanced or professional; "professional" is produced exactly
when no beginner keyword and no advanced keyword matches but a
professional-branch keyword does; and in that situation the match can only
come from "master" or "virtuoso" — the "expert" test of that branch is
indeed dead, being subsumed by the preceding "advanced" branch. -/
theorem c10_amended (s : String) :
    ((parse_preference_text s).skill_level = "beginner"
      ∨ (parse_preference_text s).skill_level = "intermediate"
      ∨ (parse_preference_text s).skill_level = "advanced"
      ∨ (parse_preference_text s).skill_level = "professional")
  ∧ ((parse_preference_text s).skill_level = "professional" ↔
      (containsAny beginnerWords (lowerL s.data) = false
        ∧ containsAny advancedWords (lowerL s.data) = false
        ∧ containsAny professionalWords (lowerL s.data) = true))
  ∧ (containsAny advancedWords (lowerL s.data) = false →
      containsAny professionalWords (lowerL s.data) = true →
      (containsTok "master".data (lowerL s.data) = true
        ∨ containsTok "virtuoso".data (lowerL s.data) = true)) := by
  have hskill : (parse_preference_text s).skill_level = extractSkill (lowerL s.data) := rfl
  refine ⟨?_, ?_, ?_⟩
  · rw [hskill]
    unfold extractSkill
    split_ifs <;> simp
  · rw [hskill]
    unfold extractSkill
    cases hb : containsAny beginnerWords (lowerL s.data) <;>
      cases ha : containsAny advancedWords (lowerL s.data) <;>
        cases hp : containsAny professionalWords (lowerL s.data) <;>
          simp [hb, ha, hp]
  · intro ha hp
    rw [containsAny_eq_false_iff] at ha
    have hexp : containsTok "expert".data (lowerL s.data) = false :=
      ha "expert" (by simp [advancedWords])
    rw [containsAny] at hp
    simp only [professionalWords, List.any_cons, List.any_nil,
      Bool.or_eq_true] at hp
    rcases hp with hp | hp | hp | hp
    · rw [hexp] at hp
      exact Bool.noConfusion hp
    · exact Or.inl hp
    · exact Or.inr hp
    · exact Bool.noConfusion hp

/-- Claim C10 witness: the amended characterization applied at a concrete
input that exercises the professional branch. -/
theorem c10_amended_witness :
    (parse_preference_text "a true master").skill_level = "professional" :=
  ((c10_amended "a true master").2.1).mpr (by refine ⟨?_, ?_, ?_⟩ <;> decide)

/-! ## Claim C6 -/

/-- Claim C6 (confirmed): the preference extractor is a total function (the
embedding is a plain function, mirroring a source path with no raising
operation), the empty string yields exactly the all-default record, and
every field whose triggers are absent from the text takes its documented
neutral default: skill "intermediate", empty genre/composer/instrument and
avoid lists, `none` tempo/mood (and, beyond the claim's list, `none`
ordering hints and empty specific genres). -/
theorem c6_extractor_defaults (s : String) :
    parse_preference_text "" = defaultPreferences
  ∧ ((parse_preference_text s).skill_level = "intermediate" ↔
      (containsAny beginnerWords (lowerL s.data) = false
        ∧ containsAny advancedWords (lowerL s.data) = false
        ∧ containsAny professionalWords (lowerL s.data) = false))
  ∧ ((parse_preference_text s).tempo_preference = none ↔
      (containsAny fastWords (lowerL s.data) = false
        ∧ containsAny slowWords (lowerL s.data) = false
        ∧ containsAny moderateWords (lowerL s.data) = false))
  ∧ ((parse_preference_text s).mood_preference = none ↔
      (containsAny energeticWords (lowerL s.data) = false
        ∧ containsAny relaxedWords (lowerL s.data) = false
        ∧ containsAny dramaticWords (lowerL s.data) = false
        ∧ containsAny happyWords (lowerL s.data) = false))
  ∧ ((parse_preference_text s).favorite_genres = [] ↔
      ∀ gk ∈ genreKeywords, containsAny gk.2 (lowerL s.data) = false)
  ∧ ((parse_preference_text s).instruments = [] ↔
      ∀ ik ∈ instrumentKeywords, containsAny ik.2 (lowerL s.data) = false)
  ∧ ((parse_preference_text s).specific_genres = [] ↔
      ∀ g ∈ specificGenreWords, containsTok g.data (lowerL s.data) = false)
  ∧ (containsAny ["favorite", "love", "like", "composer", "artist", "musician"]
        (lowerL s.data) = false →
      (∀ nm ∈ composerNames7, containsTok nm.data (lowerL s.data) = false) →
      (parse_preference_text s).favorite_composers = [])
  ∧ (containsAny ["avoid", sDontLike, "hate", "dislike", "not into", "not a fan of"]
        (lowerL s.data) = false →
      (parse_preference_text s).avoid_genres = [])
  ∧ (containsAny ["avoid", sDontLike, "hate", "dislike", "not into", "not a fan of",
        "no", sDontWant] (lowerL s.data) = false →
      (∀ nm ∈ composerNames9, containsTok nm.data (lowerL s.data) = false) →
      (parse_preference_text s).avoid_composers = [])
  ∧ (containsAny ["start with", "begin with", "open with", "first"]
        (lowerL s.data) = false →
      (parse_preference_text s).start_preference = none)
  ∧ (containsAny ["end with", "finish with", "close with", "last"]
        (lowerL s.data) = false →
      (parse_preference_text s).end_preference = none) := by
  refine ⟨by decide, ?_, ?_, ?_, ?_, ?_, ?_, ?_, ?_, ?_, ?_, ?_⟩
  · show extractSkill (lowerL s.data) = "intermediate" ↔ _
    unfold extractSkill
    cases hb : containsAny beginnerWords (lowerL s.data) <;>
      cases ha : containsAny advancedWords (lowerL s.data) <;>
        cases hp : containsAny professionalWords (lowerL s.data) <;>
          simp [hb, ha, hp]
  · show extractTempo (lowerL s.data) = none ↔ _
    unfold extractTempo
    cases h1 : containsAny fastWords (lowerL s.data) <;>
      cases h2 : containsAny slowWords (lowerL s.data) <;>
        cases h3 : containsAny moderateWords (lowerL s.data) <;>
          simp [h1, h2, h3]
  · show extractMood (lowerL s.data) = none ↔ _
    unfold extractMood
    cases h1 : containsAny energeticWords (lowerL s.data) <;>
      cases h2 : containsAny relaxedWords (lowerL s.data) <;>
        cases h3 : containsAny dramaticWords (lowerL s.data) <;>
          cases h4 : containsAny happyWords (lowerL s.data) <;>
            simp [h1, h2, h3, h4]
  · show extractGenres (lowerL s.data) = [] ↔ _
    unfold extractGenres
    rw [List.map_eq_nil_iff, List.filter_eq_nil_iff]
    constructor
    · intro h gk hgk
      have := h gk hgk
      simpa using this
    · intro h gk hgk
      simp [h gk hgk]
  · show extractInstruments (lowerL s.data) = [] ↔ _
    unfold extractInstruments
    rw [List.map_eq_nil_iff, List.filter_eq_nil_iff]
    constructor
    · intro h ik hik
      have := h ik hik
      simpa using this
    · intro h ik hik
      simp [h ik hik]
  · show extractSpecificGenres (lowerL s.data) = [] ↔ _
    unfold extractSpecificGenres
    rw [List.filter_eq_nil_iff]
    constructor
    · intro h g hg
      have := h g hg
      simpa using this
    · intro h g hg
      simp [h g hg]
  · intro h1 h2
    rw [containsAny_eq_false_iff] at h1
    have hA : ∀ a ∈ (["favorite", "love", "like"] : List String),
        containsTok a.data (lowerL s.data) = false := by
      intro a ha
      apply h1
      simp only [List.mem_cons, List.not_mem_nil, or_false] at ha ⊢
      tauto
    have hB : ∀ a ∈ (["composer", "artist", "musician"] : List String),
        containsTok a.data (lowerL s.data) = false := by
      intro a ha
      apply h1
      simp only [List.mem_cons, List.not_mem_nil, or_false] at ha ⊢
      tauto
    show (extractComposers (lowerL s.data)).take 5 = []
    unfold extractComposers
    rw [findallA_eq_nil hA, findallB_eq_nil hB, findallC_eq_nil h2]
    rfl
  · intro h1
    rw [containsAny_eq_false_iff] at h1
    have hA : ∀ a ∈ (["avoid", sDontLike, "hate", "dislike"] : List String),
        containsTok a.data (lowerL s.data) = false := by
      intro a ha
      apply h1
      simp only [List.mem_cons, List.not_mem_nil, or_false] at ha ⊢
      tauto
    have hB : ∀ a ∈ (["not into", "not a fan of"] : List String),
        containsTok a.data (lowerL s.data) = false := by
      intro a ha
      apply h1
      simp only [List.mem_cons, List.not_mem_nil, or_false] at ha ⊢
      tauto
    show (extractAvoidGenres (lowerL s.data)).take 3 = []
    unfold extractAvoidGenres
    rw [findallA_eq_nil hA, findallB_eq_nil hB]
    rfl
  · intro h1 h2
    rw [containsAny_eq_false_iff] at h1
    have hA : ∀ a ∈ (["avoid", sDontLike, "hate", "dislike"] : List String),
        containsTok a.data (lowerL s.data) = false := by
      intro a ha
      apply h1
      simp only [List.mem_cons, List.not_mem_nil, or_false] at ha ⊢
      tauto
    have hB : ∀ a ∈ (["not into", "not a fan of"] : List String),
        containsTok a.data (lowerL s.data) = false := by
      intro a ha
      apply h1
      simp only [List.mem_cons, List.not_mem_nil, or_false] at ha ⊢
      tauto
    have hC : ∀ a ∈ (["no", "avoid", sDontWant] : List String),
        containsTok a.data (lowerL s.data) = false := by
      intro a ha
      apply h1
      simp only [List.mem_cons, List.not_mem_nil, or_false] at ha ⊢
      tauto
    show (extractAvoidComposers (lowerL s.data)).take 3 = []
    unfold extractAvoidComposers
    rw [findallA_eq_nil hA, findallA_eq_nil hB, findallE_eq_nil hC,
      windowComposers_eq_nil h2]
    rfl
  · intro h1
    rw [containsAny_eq_false_iff] at h1
    show extractStartPref (lowerL s.data) = none
    unfold extractStartPref
    have hB : ∀ a ∈ (["first"] : List String),
        containsTok a.data (lowerL s.data) = false := by
      intro a ha
      apply h1
      simp only [List.mem_cons, List.not_mem_nil, or_false] at ha ⊢
      tauto
    rw [findFirstD_eq_none (h1 "start with" (by simp)),
      findFirstD_eq_none (h1 "begin with" (by simp)),
      findFirstD_eq_none (h1 "open with" (by simp)),
      findallB_eq_nil hB]
    rfl
  · intro h1
    rw [containsAny_eq_false_iff] at h1
    show extractEndPref (lowerL s.data) = none
    unfold extractEndPref
    have hB : ∀ a ∈ (["last"] : List String),
        containsTok a.data (lowerL s.data) = false := by
      intro a ha
      apply h1
      simp only [List.mem_cons, List.not_mem_nil, or_false] at ha ⊢
      tauto
    rw [findFirstD_eq_none (h1 "end with" (by simp)),
      findFirstD_eq_none (h1 "finish with" (by simp)),
      findFirstD_eq_none (h1 "close with" (by simp)),
      findallB_eq_nil hB]
    rfl

/-- Claim C6 witness: the characterization applied at a concrete input with
no triggers, all hypotheses discharged by evaluation. -/
theorem c6_extractor_defaults_witness :
    (parse_preference_text "zz").favorite_composers = []
  ∧ (parse_preference_text "zz").avoid_genres = []
  ∧ (parse_preference_text "zz").avoid_composers = []
  ∧ (parse_preference_text "zz").start_preference = none
  ∧ (parse_preference_text "zz").end_preference = none := by
  refine ⟨?_, ?_, ?_, ?_, ?_⟩
  · exact (c6_extractor_defaults "zz").2.2.2.2.2.2.2.1 (by decide) (by decide)
  · exact (c6_extractor_defaults "zz").2.2.2.2.2.2.2.2.1 (by decide)
  · exact (c6_extractor_defaults "zz").2.2.2.2.2.2.2.2.2.1 (by decide) (by decide)
  · exact (c6_extractor_defaults "zz").2.2.2.2.2.2.2.2.2.2.1 (by decide)
  · exact (c6_extractor_defaults "zz").2.2.2.2.2.2.2.2.2.2.2 (by decide)

/-! ## Supporting lemmas: collaborative filtering and selection -/

theorem startsWithL_self : ∀ t : List Char, startsWithL t t = true := by
  intro t
  induction t with
  | nil => rfl
  | cons c cs ih => simp [startsWithL, ih]

theorem containsTok_self : ∀ t : List Char, containsTok t t = true := by
  intro t
  cases t with
  | nil => rfl
  | cons c cs =>
    rw [containsTok, startsWithL_self]
    rfl

theorem mem_sortByDesc {key : CPiece → Int} {l : List CPiece} {x : CPiece} :
    x ∈ sortByDesc key l ↔ x ∈ l :=
  List.mem_insertionSort _

theorem sorted_sortByDesc (key : CPiece → Int) (l : List CPiece) :
    List.Sorted (fun a b => key b ≤ key a) (sortByDesc key l) := by
  haveI : IsTotal CPiece (fun a b => key b ≤ key a) :=
    ⟨fun a b => le_total (key b) (key a)⟩
  haveI : IsTrans CPiece (fun a b => key b ≤ key a) :=
    ⟨fun a b c h1 h2 => le_trans h2 h1⟩
  exact List.sorted_insertionSort _ l

theorem scorePiece_some {ga : GroupAnalysis} {q p : CPiece}
    (h : scorePiece ga q = some p) :
    p.genre = q.genre ∧ p.composer = q.composer
  ∧ p.duration_minutes = q.duration_minutes
  ∧ ga.avoid_genres.any
      (fun ag => containsTok (lowerL ag.data) (lowerL q.genre.data)) = false
  ∧ ga.avoid_composers.any
      (fun ac => containsTok (lowerL ac.data) (lowerL q.composer.data)) = false := by
  rw [scorePiece] at h
  by_cases h1 : ga.avoid_genres.any
      (fun ag => containsTok (lowerL ag.data) (lowerL q.genre.data)) = true
  · rw [if_pos h1] at h
    exact Option.noConfusion h
  · rw [if_neg h1] at h
    by_cases h2 : ga.avoid_composers.any
        (fun ac => containsTok (lowerL ac.data) (lowerL q.composer.data)) = true
    · rw [if_pos h2] at h
      exact Option.noConfusion h
    · rw [if_neg h2] at h
      have hp := Option.some.inj h
      refine ⟨by rw [← hp], by rw [← hp], by rw [← hp],
        Bool.eq_false_iff.mpr h1, Bool.eq_false_iff.mpr h2⟩

theorem mem_filter_pieces {pieces : List CPiece} {ga : GroupAnalysis} {p : CPiece}
    (hp : p ∈ filter_pieces_by_preferences pieces ga) :
    ∃ q ∈ pieces, scorePiece ga q = some p := by
  rw [filter_pieces_by_preferences, mem_sortByDesc] at hp
  exact List.mem_filterMap.mp hp

theorem collectHintPieces_subset {prefs : List String} {pieces : List CPiece}
    {x : CPiece} (hx : x ∈ collectHintPieces prefs pieces) : x ∈ pieces := by
  rw [collectHintPieces] at hx
  obtain ⟨pref, _, hfind⟩ := List.mem_filterMap.mp hx
  exact List.mem_of_find?_eq_some hfind

theorem collectHintPieces_head {prefs : List String} {pieces : List CPiece}
    {sp : CPiece} (h : (collectHintPieces prefs pieces).head? = some sp) :
    ∃ pref ∈ prefs,
      containsTok (lowerL pref.data) (lowerL sp.genre.data) = true := by
  have hmem : sp ∈ collectHintPieces prefs pieces := by
    cases hl : collectHintPieces prefs pieces with
    | nil => rw [hl] at h; exact Option.noConfusion h
    | cons a rest =>
      rw [hl] at h
      have heq : a = sp := Option.some.inj h
      cases heq
      exact List.mem_cons_self _ _
  rw [collectHintPieces] at hmem
  obtain ⟨pref, hpref, hfind⟩ := List.mem_filterMap.mp hmem
  refine ⟨pref, hpref, ?_⟩
  have := List.find?_some hfind
  simpa using this

theorem middleGo_subset (endPieces : List CPiece) (target : Int) :
    ∀ (l : List CPiece) (cur : Int) (x : CPiece),
      x ∈ (middleGo endPieces target l cur).1 → x ∈ l := by
  intro l
  induction l with
  | nil =>
    intro cur x hx
    simp [middleGo] at hx
  | cons p ps ih =>
    intro cur x hx
    rw [middleGo] at hx
    split_ifs at hx with h1 h2
    · exact List.mem_cons_of_mem p (ih cur x hx)
    · rcases List.mem_cons.mp hx with hx | hx
      · rw [hx]
        exact List.mem_cons_self p ps
      · exact List.mem_cons_of_mem p (ih (cur + p.duration_minutes) x hx)
    · simp at hx

theorem middleGo_spec (endPieces : List CPiece) (target : Int) :
    ∀ (l : List CPiece) (cur : Int),
      (middleGo endPieces target l cur).2
          = cur + sumDurationsC (middleGo endPieces target l cur).1
    ∧ (10 * cur ≤ 9 * target → 10 * (middleGo endPieces target l cur).2 ≤ 9 * target) := by
  intro l
  induction l with
  | nil =>
    intro cur
    refine ⟨by simp [middleGo, sumDurationsC], fun h => by simpa [middleGo] using h⟩
  | cons p ps ih =>
    intro cur
    rw [middleGo]
    split_ifs with h1 h2
    · exact ih cur
    · obtain ⟨ihsum, ihbound⟩ := ih (cur + p.duration_minutes)
      constructor
      · show (middleGo endPieces target ps (cur + p.duration_minutes)).2
            = cur + sumDurationsC (p :: (middleGo endPieces target ps (cur + p.duration_minutes)).1)
        rw [ihsum]
        simp [sumDurationsC]
        ring
      · intro _
        exact ihbound h2
    · refine ⟨by simp [sumDurationsC], fun h => by simpa using h⟩

theorem attachReasoning_length (ga : GroupAnalysis) (total : ℕ) :
    ∀ (i : ℕ) (l : List CPiece), (attachReasoning ga total i l).length = l.length := by
  intro i l
  induction l generalizing i with
  | nil => rfl
  | cons p ps ih => simp [attachReasoning, ih]

theorem attachReasoning_sum (ga : GroupAnalysis) (total : ℕ) :
    ∀ (i : ℕ) (l : List CPiece),
      sumDurationsC (attachReasoning ga total i l) = sumDurationsC l := by
  intro i l
  induction l generalizing i with
  | nil => rfl
  | cons p ps ih =>
    simp only [attachReasoning, sumDurationsC, List.map_cons, List.sum_cons]
    have h2 := ih (i + 1)
    simp only [sumDurationsC] at h2
    rw [h2]

theorem mem_attachReasoning {ga : GroupAnalysis} {total : ℕ} :
    ∀ {i : ℕ} {l : List CPiece} {x : CPiece}, x ∈ attachReasoning ga total i l →
      ∃ q ∈ l, x.genre = q.genre ∧ x.composer = q.composer
        ∧ x.duration_minutes = q.duration_minutes := by
  intro i l
  induction l generalizing i with
  | nil =>
    intro x hx
    simp [attachReasoning] at hx
  | cons p ps ih =>
    intro x hx
    rw [attachReasoning] at hx
    rcases List.mem_cons.mp hx with hx | hx
    · exact ⟨p, List.mem_cons_self p ps, by rw [hx], by rw [hx], by rw [hx]⟩
    · obtain ⟨q, hq, hfields⟩ := ih hx
      exact ⟨q, List.mem_cons_of_mem p hq, hfields⟩

theorem attachReasoning_map_strip (ga : GroupAnalysis) (total : ℕ) :
    ∀ (i : ℕ) (l : List CPiece),
      (attachReasoning ga total i l).map stripReasoning = l.map stripReasoning := by
  intro i l
  induction l generalizing i with
  | nil => rfl
  | cons p ps ih => simp [attachReasoning, stripReasoning, ih i.succ]

theorem mem_of_head?_eq {α : Type} {l : List α} {a : α} (h : l.head? = some a) :
    a ∈ l := by
  cases l with
  | nil => exact Option.noConfusion h
  | cons x xs =>
    have heq : x = a := Option.some.inj h
    cases heq
    exact List.mem_cons_self _ _

theorem sumDurationsC_append (a b : List CPiece) :
    sumDurationsC (a ++ b) = sumDurationsC a + sumDurationsC b := by
  simp [sumDurationsC]

theorem startStage_sum (pieces : List CPiece) (target : Int)
    (startPieces : List CPiece) (h : 0 ≤ target) :
    sumDurationsC (startStage pieces target startPieces).1
        = (startStage pieces target startPieces).2.1
  ∧ 10 * (startStage pieces target startPieces).2.1 ≤ 9 * target := by
  rw [startStage]
  cases hh : startPieces.head? with
  | none =>
    dsimp only
    exact ⟨by simp [sumDurationsC], by linarith⟩
  | some sp =>
    dsimp only
    split_ifs with hfit
    · exact ⟨by simp [sumDurationsC], hfit⟩
    · exact ⟨by simp [sumDurationsC], by dsimp only; linarith⟩

theorem startStage_subset (pieces : List CPiece) (target : Int)
    (startPieces : List CPiece) :
    (∀ x ∈ (startStage pieces target startPieces).2.2, x ∈ pieces)
  ∧ (∀ x ∈ (startStage pieces target startPieces).1, x ∈ startPieces) := by
  rw [startStage]
  cases hh : startPieces.head? with
  | none => exact ⟨fun x hx => hx, fun x hx => by simp at hx⟩
  | some sp =>
    dsimp only
    split_ifs with hfit
    · refine ⟨fun x hx => List.mem_of_mem_erase hx, fun x hx => ?_⟩
      have hxe : x = sp := by simpa using hx
      rw [hxe]
      exact mem_of_head?_eq hh
    · exact ⟨fun x hx => hx, fun x hx => by simp at hx⟩

theorem endStage_bound {endPieces : List CPiece} {target cur : Int}
    {selected : List CPiece} (hsum : sumDurationsC selected = cur)
    (hcur : 10 * cur ≤ 9 * target) :
    10 * sumDurationsC (endStage endPieces target cur selected) ≤ 9 * target := by
  rw [endStage]
  split_ifs with h1
  · cases hh : endPieces.head? with
    | none => simpa [hsum] using hcur
    | some ep =>
      dsimp only
      split_ifs with h2
      · have hs : sumDurationsC (selected ++ [ep]) = cur + ep.duration_minutes := by
          rw [sumDurationsC_append, hsum]
          simp [sumDurationsC]
        rw [hs]
        exact h2
      · simpa [hsum] using hcur
  · simpa [hsum] using hcur

theorem endStage_subset {endPieces : List CPiece} {target cur : Int}
    {selected : List CPiece} {x : CPiece}
    (hx : x ∈ endStage endPieces target cur selected) :
    x ∈ selected ∨ x ∈ endPieces := by
  rw [endStage] at hx
  split_ifs at hx with h1
  · cases hh : endPieces.head? with
    | none =>
      rw [hh] at hx
      exact Or.inl hx
    | some ep =>
      rw [hh] at hx
      dsimp only at hx
      split_ifs at hx with h2
      · rcases List.mem_append.mp hx with hx | hx
        · exact Or.inl hx
        · have hxe : x = ep := by simpa using hx
          rw [hxe]
          exact Or.inr (mem_of_head?_eq hh)
      · exact Or.inl hx
  · exact Or.inl hx

theorem endStage_head {endPieces : List CPiece} {target cur : Int} {p : CPiece}
    {rest : List CPiece} :
    (endStage endPieces target cur (p :: rest)).head? = some p := by
  rw [endStage]
  split_ifs with h1
  · cases hh : endPieces.head? with
    | none => rfl
    | some ep =>
      dsimp only
      split_ifs with h2
      · simp
      · rfl
  · rfl

theorem selectCore_subset {pieces : List CPiece} {target : Int} {ga : GroupAnalysis}
    {x : CPiece} (hx : x ∈ selectCore pieces target ga) : x ∈ pieces := by
  simp only [selectCore] at hx
  rcases endStage_subset hx with hx | hx
  · rcases List.mem_append.mp hx with hx | hx
    · exact collectHintPieces_subset
        ((startStage_subset pieces target
          (collectHintPieces ga.start_preferences pieces)).2 x hx)
    · exact (startStage_subset pieces target
          (collectHintPieces ga.start_preferences pieces)).1 x
        (middleGo_subset _ target _ _ x hx)
  · exact collectHintPieces_subset hx

theorem selectCore_bound {pieces : List CPiece} {target : Int} {ga : GroupAnalysis}
    (h : 0 ≤ target) :
    10 * sumDurationsC (selectCore pieces target ga) ≤ 9 * target := by
  obtain ⟨hsum1, hbound1⟩ :=
    startStage_sum pieces target (collectHintPieces ga.start_preferences pieces) h
  obtain ⟨hmsum, hmbound⟩ :=
    middleGo_spec (collectHintPieces ga.end_preferences pieces) target
      (startStage pieces target (collectHintPieces ga.start_preferences pieces)).2.2
      (startStage pieces target (collectHintPieces ga.start_preferences pieces)).2.1
  show 10 * sumDurationsC (endStage _ target _ (_ ++ _)) ≤ 9 * target
  apply endStage_bound
  · rw [sumDurationsC_append, hsum1, hmsum]
  · exact hmbound hbound1

theorem attachReasoning_head_strip (ga : GroupAnalysis) (total i : ℕ) (x : CPiece)
    (xs : List CPiece) :
    ((attachReasoning ga total i (x :: xs)).head?).map stripReasoning
      = some (stripReasoning x) := by
  simp [attachReasoning, stripReasoning]

/-! ## Claim C8 -/

/-- Claim C8 (confirmed): the collaborative selection runs over the
filtered pool sorted descending by collaborative score, and the cumulative
duration of the selected pieces never exceeds 90 percent of the target
duration (`10 * total ≤ 9 * target` models `total ≤ 0.9 * target`): every
acceptance path — start slot, greedy middle loop, end slot — checks the
cumulative total against the 90 percent bound. -/
theorem c8_selection_headroom (pieces : List CPiece) (target : Int)
    (ga : GroupAnalysis) (h : 0 ≤ target) :
    10 * sumDurationsC
        (select_pieces_for_duration (filter_pieces_by_preferences pieces ga) target ga)
      ≤ 9 * target
  ∧ List.Sorted (fun a b => b.collaborative_score ≤ a.collaborative_score)
      (filter_pieces_by_preferences pieces ga) := by
  constructor
  · rw [select_pieces_for_duration, attachReasoning_sum]
    exact selectCore_bound h
  · rw [filter_pieces_by_preferences]
    exact sorted_sortByDesc _ _

/-- Claim C8 witness: the bound applied to a concrete pool, analysis and
target. -/
theorem c8_selection_headroom_witness :
    (0 : Int) ≤ 20
  ∧ 10 * sumDurationsC
        (select_pieces_for_duration
          (filter_pieces_by_preferences
            [⟨"Blue Bossa", "Kenny Dorham", 4, "jazz", "medium", "intermediate", 0, ""⟩]
            (analyze_group_preferences
              [⟨"u1", "A", "t1",
                ⟨["jazz"], [], [], "intermediate", ["metal"], ["wagner"],
                  none, none, none, none, []⟩⟩]))
          20
          (analyze_group_preferences
            [⟨"u1", "A", "t1",
              ⟨["jazz"], [], [], "intermediate", ["metal"], ["wagner"],
                none, none, none, none, []⟩⟩]))
      ≤ 9 * 20 :=
  ⟨by decide,
    (c8_selection_headroom
      [⟨"Blue Bossa", "Kenny Dorham", 4, "jazz", "medium", "intermediate", 0, ""⟩]
      20
      (analyze_group_preferences
        [⟨"u1", "A", "t1",
          ⟨["jazz"], [], [], "intermediate", ["metal"], ["wagner"],
            none, none, none, none, []⟩⟩])
      (by decide)).1⟩

/-! ## Claim C4 -/

/-- Claim C4 (confirmed): no piece produced by the collaborative selection
has a genre appearing in ANY participant's avoid-genre list, nor a composer
in any participant's avoid-composer list — a single veto suffices, since the
analysis unions all avoid lists and the filter drops every piece whose
lowercased genre/composer contains an avoided entry as a substring (which
covers exact membership). -/
theorem c4_avoid_union (responses : List PrefResponse) (pieces : List CPiece)
    (target : Int) (p : CPiece)
    (hp : p ∈ select_pieces_for_duration
        (filter_pieces_by_preferences pieces (analyze_group_preferences responses))
        target (analyze_group_preferences responses)) :
    ∀ r ∈ responses,
      (∀ g ∈ r.preferences.avoid_genres, p.genre ≠ g)
    ∧ (∀ c ∈ r.preferences.avoid_composers, p.composer ≠ c) := by
  intro r hr
  rw [select_pieces_for_duration] at hp
  obtain ⟨q, hq, hpg, hpc, _⟩ := mem_attachReasoning hp
  have hqf : q ∈ filter_pieces_by_preferences pieces (analyze_group_preferences responses) :=
    selectCore_subset hq
  obtain ⟨q0, _, hscore⟩ := mem_filter_pieces hqf
  obtain ⟨hg, hc, _, hanyg, hanyc⟩ := scorePiece_some hscore
  constructor
  · intro g hgmem heq
    have hgga : g ∈ (analyze_group_preferences responses).avoid_genres := by
      show g ∈ firstDedup (responses.flatMap fun r => r.preferences.avoid_genres)
      rw [mem_firstDedup]
      exact List.mem_flatMap.mpr ⟨r, hr, hgmem⟩
    have hfalse := (List.any_eq_false.mp hanyg) g hgga
    have hq0g : q0.genre = g := by rw [← hg, ← hpg, heq]
    rw [hq0g] at hfalse
    exact hfalse (containsTok_self _)
  · intro c hcmem heq
    have hcga : c ∈ (analyze_group_preferences responses).avoid_composers := by
      show c ∈ firstDedup (responses.flatMap fun r => r.preferences.avoid_composers)
      rw [mem_firstDedup]
      exact List.mem_flatMap.mpr ⟨r, hr, hcmem⟩
    have hfalse := (List.any_eq_false.mp hanyc) c hcga
    have hq0c : q0.composer = c := by rw [← hc, ← hpc, heq]
    rw [hq0c] at hfalse
    exact hfalse (containsTok_self _)

/-- Claim C4 witness: a concrete run in which a piece is selected, applied
to the participant's concrete avoid entries. -/
theorem c4_avoid_union_witness :
    (⟨"Blue Bossa", "Kenny Dorham", 4, "jazz", "medium", "intermediate", 3,
        "Selected because: matches group preferences, appropriate for intermediate skill level"⟩
      : CPiece).genre ≠ "metal"
  ∧ (⟨"Blue Bossa", "Kenny Dorham", 4, "jazz", "medium", "intermediate", 3,
        "Selected because: matches group preferences, appropriate for intermediate skill level"⟩
      : CPiece).composer ≠ "wagner" := by
  have h := c4_avoid_union
    [⟨"u1", "A", "t1",
      ⟨["jazz"], [], [], "intermediate", ["metal"], ["wagner"],
        none, none, none, none, []⟩⟩]
    [⟨"Blue Bossa", "Kenny Dorham", 4, "jazz", "medium", "intermediate", 0, ""⟩]
    20
    (⟨"Blue Bossa", "Kenny Dorham", 4, "jazz", "medium", "intermediate", 3,
      "Selected because: matches group preferences, appropriate for intermediate skill level"⟩)
    (by decide)
    (⟨"u1", "A", "t1",
      ⟨["jazz"], [], [], "intermediate", ["metal"], ["wagner"],
        none, none, none, none, []⟩⟩)
    (by decide)
  exact ⟨h.1 "metal" (by decide), h.2 "wagner" (by decide)⟩

/-! ## Claim C9 -/

/-- Claim C9, counterexample: the selection only ever considers the FIRST
candidate matched for the first start hint.  With hint "blues", a pool whose
top-ranked blues candidate (10 min) does not fit 90 percent of the target
(10 min) but whose second blues candidate (4 min) does, the code reserves
nothing and the greedy loop breaks at the first piece — the output is empty,
so no matching candidate occupies position 0 even though one exists and
fits. -/
theorem c9_counterexample :
    select_pieces_for_duration
        (filter_pieces_by_preferences
          [⟨"Big Blues", "X", 10, "blues", "up-tempo", "advanced", 0, ""⟩,
           ⟨"Small Blues", "Y", 4, "blues", "up-tempo", "advanced", 0, ""⟩]
          ⟨[], [], [], [], [], [], [], [], ["blues"], [], [], none, 1 / 2, 1⟩)
        10 ⟨[], [], [], [], [], [], [], [], ["blues"], [], [], none, 1 / 2, 1⟩
      = []
  ∧ "blues" ∈ (⟨[], [], [], [], [], [], [], [], ["blues"], [], [], none, 1 / 2, 1⟩
      : GroupAnalysis).start_preferences
  ∧ ∃ p ∈ filter_pieces_by_preferences
        [⟨"Big Blues", "X", 10, "blues", "up-tempo", "advanced", 0, ""⟩,
         ⟨"Small Blues", "Y", 4, "blues", "up-tempo", "advanced", 0, ""⟩]
        ⟨[], [], [], [], [], [], [], [], ["blues"], [], [], none, 1 / 2, 1⟩,
      containsTok (lowerL "blues".data) (lowerL p.genre.data) = true
        ∧ 10 * p.duration_minutes ≤ 9 * 10 := by
  refine ⟨by decide, by decide, by decide⟩

/-- Claim C9 (amended): only the first candidate collected for the earliest
matching start hint is considered.  If that candidate's own duration is
within 90 percent of the target, it occupies position 0 of the output (and
it does match one of the start hints); otherwise no start reservation
happens at all and the selection is identical (up to the attached rationale
text) to a run with no start hints — even when a later matching candidate
would fit. -/
theorem c9_amended (pieces : List CPiece) (target : Int) (ga : GroupAnalysis) :
    (∀ sp, (collectHintPieces ga.start_preferences pieces).head? = some sp →
      10 * sp.duration_minutes ≤ 9 * target →
      ((select_pieces_for_duration pieces target ga).head?.map stripReasoning
          = some (stripReasoning sp)
        ∧ ∃ pref ∈ ga.start_preferences,
            containsTok (lowerL pref.data) (lowerL sp.genre.data) = true))
  ∧ (∀ sp, (collectHintPieces ga.start_preferences pieces).head? = some sp →
      ¬ 10 * sp.duration_minutes ≤ 9 * target →
      (select_pieces_for_duration pieces target ga).map stripReasoning
        = (select_pieces_for_duration pieces target
            { ga with start_preferences := [] }).map stripReasoning) := by
  constructor
  · intro sp hsp hfit
    have hs1 : startStage pieces target (collectHintPieces ga.start_preferences pieces)
        = ([sp], sp.duration_minutes, pieces.erase sp) := by
      rw [startStage, hsp]
      dsimp only
      rw [if_pos hfit]
    have hh : (selectCore pieces target ga).head? = some sp := by
      simp only [selectCore, hs1]
      exact endStage_head
    obtain ⟨rest, hrest⟩ : ∃ rest, selectCore pieces target ga = sp :: rest := by
      cases hsel : selectCore pieces target ga with
      | nil =>
        rw [hsel] at hh
        exact Option.noConfusion hh
      | cons a r =>
        rw [hsel] at hh
        exact ⟨r, by rw [Option.some.inj hh]⟩
    constructor
    · rw [select_pieces_for_duration, hrest]
      exact attachReasoning_head_strip ga _ 0 sp rest
    · exact collectHintPieces_head hsp
  · intro sp hsp hunfit
    have hs1 : startStage pieces target (collectHintPieces ga.start_preferences pieces)
        = ([], 0, pieces) := by
      rw [startStage, hsp]
      dsimp only
      rw [if_neg hunfit]
    have hcore : selectCore pieces target ga
        = selectCore pieces target { ga with start_preferences := [] } := by
      simp only [selectCore, hs1]
      rfl
    rw [select_pieces_for_duration, select_pieces_for_duration, hcore,
      attachReasoning_map_strip, attachReasoning_map_strip]

/-- Claim C9 witness: a concrete run where the first blues candidate fits,
so it lands at position 0. -/
theorem c9_amended_witness :
    (select_pieces_for_duration
        [⟨"Blue Monk", "Thelonious Monk", 4, "blues", "medium", "intermediate", 0, ""⟩]
        10
        ⟨[], [], [], [], [], [], [], [], ["blues"], [], [], none, 1 / 2, 1⟩).head?.map
      stripReasoning
    = some (stripReasoning
        ⟨"Blue Monk", "Thelonious Monk", 4, "blues", "medium", "intermediate", 0, ""⟩) :=
  ((c9_amended
      [⟨"Blue Monk", "Thelonious Monk", 4, "blues", "medium", "intermediate", 0, ""⟩]
      10
      ⟨[], [], [], [], [], [], [], [], ["blues"], [], [], none, 1 / 2, 1⟩).1
    ⟨"Blue Monk", "Thelonious Monk", 4, "blues", "medium", "intermediate", 0, ""⟩
    (by decide) (by decide)).1

/-! ## Supporting lemmas: coordinator -/

theorem selectGo_length (target : Int) :
    ∀ (l : List ScoredPiece) (total : Int) (count : ℕ), count < 8 →
      (selectGo target l total count).length ≤ 8 - count := by
  intro l
  induction l with
  | nil =>
    intro total count h
    simp [selectGo]
  | cons sp rest ih =>
    intro total count h
    rw [selectGo]
    split_ifs with h1 h2
    · have hc : count = 7 := by omega
      simp [hc]
    · have hlt : count + 1 < 8 := by omega
      have := ih (total + sp.piece.duration_minutes) (count + 1) hlt
      simp only [List.length_cons]
      omega
    · exact ih total count h

theorem selectGo_sum (target : Int) :
    ∀ (l : List ScoredPiece) (total : Int) (count : ℕ),
      selectGo target l total count = []
    ∨ total + sumDurationsA (selectGo target l total count) ≤ target + 5 := by
  intro l
  induction l with
  | nil =>
    intro total count
    exact Or.inl rfl
  | cons sp rest ih =>
    intro total count
    rw [selectGo]
    split_ifs with h1 h2
    · right
      simpa [sumDurationsA] using h1
    · right
      rcases ih (total + sp.piece.duration_minutes) (count + 1) with hnil | hsum
      · rw [hnil]
        simpa [sumDurationsA] using h1
      · simp only [sumDurationsA, List.map_cons, List.sum_cons] at hsum ⊢
        omega
    · exact ih total count

theorem find_opening_piece_mem {pieces : List APiece} {p : APiece}
    (h : find_opening_piece pieces = some p) : p ∈ pieces := by
  rw [find_opening_piece] at h
  cases hf : pieces.find? (fun q =>
      q.difficulty_level = "beginner" ∨ q.difficulty_level = "intermediate") with
  | some q =>
    rw [hf] at h
    have hq := Option.some.inj h
    cases hq
    exact List.mem_of_find?_eq_some hf
  | none =>
    rw [hf] at h
    exact mem_of_head?_eq h

theorem order_pieces_perm (pieces : List APiece) :
    (order_pieces_for_flow pieces).Perm pieces := by
  rw [order_pieces_for_flow]
  split_ifs with h
  · exact List.Perm.refl _
  · cases hf : find_opening_piece pieces with
    | some p => exact (List.perm_cons_erase (find_opening_piece_mem hf)).symm
    | none => exact List.Perm.refl _

theorem sumDurationsA_perm {a b : List APiece} (h : a.Perm b) :
    sumDurationsA a = sumDurationsA b := by
  show (a.map fun p => p.duration_minutes).sum = (b.map fun p => p.duration_minutes).sum
  exact (h.map _).sum_eq

/-! ## Claim C3 -/

/-- Claim C3 (confirmed): for every requirements input with a non-negative
target duration and every set of scored candidate pieces, the Synthesize
phase's selected-and-ordered piece set satisfies both
`total_duration ≤ target_duration + 5` (the fixed 5-minute buffer, checked
at each greedy acceptance) and piece count at most 8 (the loop breaks at 8;
ordering only permutes the selection). -/
theorem c3_synthesis_bounds (pieceScores : List (String × ScoredPiece))
    (req : Requirements) (h : 0 ≤ req.duration_minutes) :
    (order_pieces_for_flow (select_pieces_for_setlist pieceScores req)).length ≤ 8
  ∧ (generate_setlist_metadata
        (order_pieces_for_flow (select_pieces_for_setlist pieceScores req))
        req).total_duration
      ≤ req.duration_minutes + 5 := by
  have hperm := order_pieces_perm (select_pieces_for_setlist pieceScores req)
  constructor
  · rw [hperm.length_eq]
    have hl := selectGo_length req.duration_minutes
      (sortScoredDesc (pieceScores.map (·.2))) 0 0 (by omega)
    simpa [select_pieces_for_setlist] using hl
  · show sumDurationsA (order_pieces_for_flow (select_pieces_for_setlist pieceScores req))
        ≤ req.duration_minutes + 5
    rw [sumDurationsA_perm hperm]
    rcases selectGo_sum req.duration_minutes
        (sortScoredDesc (pieceScores.map (·.2))) 0 0 with hnil | hsum
    · show sumDurationsA (selectGo req.duration_minutes
          (sortScoredDesc (pieceScores.map (·.2))) 0 0) ≤ _
      rw [hnil]
      simp only [sumDurationsA, List.map_nil, List.sum_nil]
      omega
    · show sumDurationsA (selectGo req.duration_minutes
          (sortScoredDesc (pieceScores.map (·.2))) 0 0) ≤ _
      omega

/-- Claim C3 witness: the bounds applied to a concrete scored pool. -/
theorem c3_synthesis_bounds_witness :
    (0 : Int) ≤ 30
  ∧ (order_pieces_for_flow (select_pieces_for_setlist
        [("T", ⟨⟨"T", "C", 25, "intermediate", "C major", [], "classical", "r"⟩,
            [("curator", 8)], 8, 1, 8⟩),
         ("U", ⟨⟨"U", "D", 25, "advanced", "G major", [], "classical", "r"⟩,
            [("curator", 6)], 6, 1, 6⟩)]
        ⟨"jazz_concert", 30, ["piano"], "beginner"⟩)).length ≤ 8 :=
  ⟨by decide,
    (c3_synthesis_bounds
      [("T", ⟨⟨"T", "C", 25, "intermediate", "C major", [], "classical", "r"⟩,
          [("curator", 8)], 8, 1, 8⟩),
       ("U", ⟨⟨"U", "D", 25, "advanced", "G major", [], "classical", "r"⟩,
          [("curator", 6)], 6, 1, 6⟩)]
      ⟨"jazz_concert", 30, ["piano"], "beginner"⟩ (by decide)).1⟩

theorem insertEval_ne_nil (acc : List (String × PieceScoreData)) (t : EvalEntry) :
    insertEval acc t ≠ [] := by
  cases acc with
  | nil => simp [insertEval]
  | cons x rest =>
    rw [insertEval]
    split_ifs <;> simp

theorem scoreFold_ne_nil :
    ∀ (ts : List EvalEntry) (acc : List (String × PieceScoreData)),
      (acc ≠ [] ∨ ts ≠ []) → scoreFold acc ts ≠ [] := by
  intro ts
  induction ts with
  | nil =>
    intro acc h
    rcases h with h | h
    · exact h
    · simp at h
  | cons t ts ih =>
    intro acc _
    exact ih (insertEval acc t) (Or.inl (insertEval_ne_nil acc t))

theorem insertEval_pred {P : APiece → Prop} :
    ∀ (acc : List (String × PieceScoreData)) (t : EvalEntry),
      (∀ e ∈ acc, P e.2.piece) → P t.2.1 → ∀ e ∈ insertEval acc t, P e.2.piece := by
  intro acc
  induction acc with
  | nil =>
    intro t _ ht e he
    simp only [insertEval, List.mem_singleton] at he
    rw [he]
    exact ht
  | cons x rest ih =>
    intro t hacc ht e he
    rw [insertEval] at he
    split_ifs at he with hk
    · rcases List.mem_cons.mp he with he | he
      · rw [he]
        exact hacc x (List.mem_cons_self _ _)
      · exact hacc e (List.mem_cons_of_mem _ he)
    · rcases List.mem_cons.mp he with he | he
      · rw [he]
        exact hacc x (List.mem_cons_self _ _)
      · exact ih t (fun e' he' => hacc e' (List.mem_cons_of_mem _ he')) ht e he

theorem scoreFold_pred {P : APiece → Prop} :
    ∀ (ts : List EvalEntry) (acc : List (String × PieceScoreData)),
      (∀ e ∈ acc, P e.2.piece) → (∀ t ∈ ts, P t.2.1) →
      ∀ e ∈ scoreFold acc ts, P e.2.piece := by
  intro ts
  induction ts with
  | nil =>
    intro acc hacc _ e he
    exact hacc e he
  | cons t ts ih =>
    intro acc hacc hall e he
    exact ih (insertEval acc t)
      (insertEval_pred acc t hacc (hall t (List.mem_cons_self _ _)))
      (fun t' ht' => hall t' (List.mem_cons_of_mem _ ht')) e he

theorem score_pieces_pred {P : APiece → Prop}
    (results : List (String × List (APiece × Evaluation)))
    (hall : ∀ t ∈ flattenEvaluations results, P t.2.1) :
    ∀ e ∈ score_pieces results, P e.2.piece := by
  intro e he
  rw [score_pieces] at he
  obtain ⟨ksd, hksd, hmap⟩ := List.mem_map.mp he
  have hP := scoreFold_pred (flattenEvaluations results) []
    (by simp) hall ksd hksd
  rw [← hmap]
  exact hP

theorem mem_sortScoredDesc {l : List ScoredPiece} {x : ScoredPiece} :
    x ∈ sortScoredDesc l ↔ x ∈ l :=
  List.mem_insertionSort _

theorem sortScoredDesc_length (l : List ScoredPiece) :
    (sortScoredDesc l).length = l.length :=
  (List.perm_insertionSort _ l).length_eq

theorem selectGo_cons_nonempty {target : Int} {sp : ScoredPiece}
    {rest : List ScoredPiece} (h : sp.piece.duration_minutes ≤ target + 5) :
    1 ≤ (selectGo target (sp :: rest) 0 0).length := by
  rw [selectGo]
  have h0 : (0 : Int) + sp.piece.duration_minutes ≤ target + 5 := by omega
  rw [if_pos h0]
  split_ifs <;> simp

theorem select_nonempty_of_fitting (req : Requirements)
    (scored : List (String × ScoredPiece)) (hne : scored ≠ [])
    (hdur : ∀ e ∈ scored, e.2.piece.duration_minutes = 5)
    (h : 0 ≤ req.duration_minutes) :
    1 ≤ (select_pieces_for_setlist scored req).length := by
  rw [select_pieces_for_setlist]
  cases hs : sortScoredDesc (scored.map (·.2)) with
  | nil =>
    exfalso
    have hlen := sortScoredDesc_length (scored.map (·.2))
    rw [hs] at hlen
    simp only [List.length_nil, List.length_map] at hlen
    exact hne (List.length_eq_zero.mp hlen.symm)
  | cons sp rest =>
    have hsp : sp ∈ sortScoredDesc (scored.map (·.2)) := by
      rw [hs]
      exact List.mem_cons_self _ _
    obtain ⟨e, he, hesp⟩ := List.mem_map.mp (mem_sortScoredDesc.mp hsp)
    have hd : sp.piece.duration_minutes = 5 := by
      rw [← hesp]
      exact hdur e he
    exact selectGo_cons_nonempty (by omega)

/-! ## Claim C2 -/

set_option maxHeartbeats 1000000 in
/-- Unfolding lemma: the all-LLM-fail design pipeline, with the let bindings
of `designSetlistAllLLMFail` and `phase_synthesis_body` expanded. -/
theorem designSetlistAllLLMFail_pieces (req : Requirements) :
    (designSetlistAllLLMFail req).pieces
      = order_pieces_for_flow (select_pieces_for_setlist (score_pieces
          [("curator", (collect_unique_pieces
          [("curator", curatorFallbackSuggestions req),
           ("technical", technicalFallbackSuggestions req),
           ("flow", flowFallbackSuggestions req)]).map (fun p => (p, curatorDefaultEvaluation))),
           ("technical", (collect_unique_pieces
          [("curator", curatorFallbackSuggestions req),
           ("technical", technicalFallbackSuggestions req),
           ("flow", flowFallbackSuggestions req)]).map (fun p => (p, technicalDefaultEvaluation))),
           ("flow", (collect_unique_pieces
          [("curator", curatorFallbackSuggestions req),
           ("technical", technicalFallbackSuggestions req),
           ("flow", flowFallbackSuggestions req)]).map (fun p => (p, flowDefaultEvaluation)))]) req) := by
  dsimp only [designSetlistAllLLMFail, phase_synthesis_body]

/-- Claim C2 (confirmed): when every external text-completion call fails in
every phase, each advisor's `suggest_pieces` returns its built-in fallback
list and each `evaluate_piece` its default evaluation (analysis results are
not consumed by the parsers), and the resulting design still carries at
least one piece whenever the requested duration is non-negative; moreover a
raised exception in the Synthesize phase resolves to the single hard-coded
placeholder program (one piece), never propagating to the caller. -/
theorem c2_all_fail_design (req : Requirements) (h : 0 ≤ req.duration_minutes) :
    1 ≤ (designSetlistAllLLMFail req).pieces.length
  ∧ (∀ msg, phase_synthesis (Except.error msg) req = create_fallback_setlist req)
  ∧ (create_fallback_setlist req).pieces.length = 1 := by
  refine ⟨?_, fun msg => rfl, rfl⟩
  have hcollect : collect_unique_pieces
      [("curator", curatorFallbackSuggestions req),
       ("technical", technicalFallbackSuggestions req),
       ("flow", flowFallbackSuggestions req)]
      = curatorFallbackSuggestions req ++ technicalFallbackSuggestions req
          ++ flowFallbackSuggestions req := by
    simp [collect_unique_pieces, collectUniqueGo, curatorFallbackSuggestions,
      technicalFallbackSuggestions, flowFallbackSuggestions, List.contains]
  rw [designSetlistAllLLMFail_pieces]
  rw [(order_pieces_perm _).length_eq]
  refine select_nonempty_of_fitting req _ ?_ ?_ h
  · rw [score_pieces]
    intro hmap
    have hfold := List.map_eq_nil_iff.mp hmap
    refine scoreFold_ne_nil _ [] (Or.inr ?_) hfold
    rw [flattenEvaluations]
    rw [hcollect]
    simp [curatorFallbackSuggestions, technicalFallbackSuggestions,
      flowFallbackSuggestions]
  · intro e he
    refine @score_pieces_pred (fun p => p.duration_minutes = 5) _ ?_ e he
    intro t ht
    rw [flattenEvaluations, hcollect] at ht
    simp only [curatorFallbackSuggestions, technicalFallbackSuggestions,
      flowFallbackSuggestions, List.cons_append, List.nil_append,
      List.map_cons, List.map_nil, List.flatMap_cons, List.flatMap_nil,
      List.append_nil, List.mem_append, List.mem_cons, List.not_mem_nil,
      or_false] at ht
    rcases ht with ht | ht | ht | ht | ht | ht | ht | ht | ht <;> rw [ht]

/-- Witness for C2: a concrete 60-minute jazz-concert request. -/
theorem c2_all_fail_design_witness :
    (0 : Int) ≤ (60 : Int)
  ∧ (1 ≤ (designSetlistAllLLMFail ⟨"jazz_concert", 60, ["piano"], "beginner"⟩).pieces.length
     ∧ (∀ msg, phase_synthesis (Except.error msg) ⟨"jazz_concert", 60, ["piano"], "beginner"⟩
          = create_fallback_setlist ⟨"jazz_concert", 60, ["piano"], "beginner"⟩)
     ∧ (create_fallback_setlist ⟨"jazz_concert", 60, ["piano"], "beginner"⟩).pieces.length = 1) :=
  ⟨by decide, c2_all_fail_design ⟨"jazz_concert", 60, ["piano"], "beginner"⟩ (by decide)⟩

/-! ## Supporting lemmas: coordinator score aggregation (C7) -/

/-- The extracted scores recorded for `title` by a run of the `_score_pieces`
loop over the entries `ts`, in processing order. -/
def gatherT (title : String) : List EvalEntry → List ℚ
| [] => []
| t :: ts =>
  if t.2.1.title = title then extract_score_from_evaluation t.2.2 :: gatherT title ts
  else gatherT title ts

theorem gatherT_eq_filterMap (title : String) : ∀ ts : List EvalEntry,
    gatherT title ts = ts.filterMap (fun t =>
      if t.2.1.title = title then some (extract_score_from_evaluation t.2.2) else none)
  | [] => rfl
  | t :: ts => by
    rw [List.filterMap_cons]
    by_cases h : t.2.1.title = title
    · simp only [gatherT, h, if_true]
      rw [gatherT_eq_filterMap title ts]
    · simp only [gatherT, h, if_false]
      rw [gatherT_eq_filterMap title ts]

theorem gatherScores_eq_gatherT (results : List (String × List (APiece × Evaluation)))
    (title : String) :
    gatherScores results title = gatherT title (flattenEvaluations results) := by
  rw [gatherScores, gatherT_eq_filterMap]

theorem lookup_map_F {β γ : Type} (F : β → γ) (t : String) :
    ∀ l : List (String × β),
      (l.map (fun p => (p.1, F p.2))).lookup t = (l.lookup t).map F
  | [] => rfl
  | (k, b) :: l => by
    by_cases h : t = k
    · have hbe : (t == k) = true := beq_iff_eq.mpr h
      simp only [List.map_cons, List.lookup, hbe]
      rfl
    · have hbe : (t == k) = false := beq_eq_false_iff_ne.mpr h
      simp only [List.map_cons, List.lookup, hbe]
      exact lookup_map_F F t l

theorem lookup_isSome_of_mem_keys {β : Type} (t : String) :
    ∀ l : List (String × β), t ∈ l.map (fun p => p.1) → ∃ v, l.lookup t = some v
  | [], h => absurd h (List.not_mem_nil t)
  | (k, b) :: l, h => by
    by_cases hk : t = k
    · have hbe : (t == k) = true := beq_iff_eq.mpr hk
      exact ⟨b, by simp only [List.lookup, hbe]⟩
    · have hbe : (t == k) = false := beq_eq_false_iff_ne.mpr hk
      simp only [List.map_cons, List.mem_cons] at h
      rcases h with h | h
      · exact absurd h hk
      · obtain ⟨v, hv⟩ := lookup_isSome_of_mem_keys t l h
        refine ⟨v, ?_⟩
        simp only [List.lookup, hbe]
        exact hv

theorem insertEval_lookup_self_none (t : EvalEntry) :
    ∀ acc : List (String × PieceScoreData), acc.lookup t.2.1.title = none →
      (insertEval acc t).lookup t.2.1.title =
        some { piece := t.2.1
               scores := [(t.1, extract_score_from_evaluation t.2.2)]
               total_score := extract_score_from_evaluation t.2.2
               evaluation_count := 1 }
  | [], _ => by
    rw [insertEval]
    have hbe : (t.2.1.title == t.2.1.title) = true := beq_iff_eq.mpr rfl
    simp only [List.lookup, hbe]
  | (k, sd) :: rest, h => by
    by_cases hk : k = t.2.1.title
    · exfalso
      have hbe : (t.2.1.title == k) = true := beq_iff_eq.mpr hk.symm
      simp only [List.lookup, hbe] at h
      exact Option.noConfusion h
    · have hbe : (t.2.1.title == k) = false := beq_eq_false_iff_ne.mpr (Ne.symm hk)
      simp only [List.lookup, hbe] at h
      rw [insertEval, if_neg hk]
      simp only [List.lookup, hbe]
      exact insertEval_lookup_self_none t rest h

theorem insertEval_lookup_self_some (t : EvalEntry) (sd0 : PieceScoreData) :
    ∀ acc : List (String × PieceScoreData), acc.lookup t.2.1.title = some sd0 →
      (insertEval acc t).lookup t.2.1.title =
        some { sd0 with
                 scores := upsertAssoc t.1 (extract_score_from_evaluation t.2.2) sd0.scores
                 total_score := sd0.total_score + extract_score_from_evaluation t.2.2
                 evaluation_count := sd0.evaluation_count + 1 }
  | [], h => by exact Option.noConfusion h
  | (k, sd) :: rest, h => by
    by_cases hk : k = t.2.1.title
    · have hbe : (t.2.1.title == k) = true := beq_iff_eq.mpr hk.symm
      simp only [List.lookup, hbe, Option.some.injEq] at h
      subst h
      rw [insertEval, if_pos hk]
      simp only [List.lookup, hbe]
    · have hbe : (t.2.1.title == k) = false := beq_eq_false_iff_ne.mpr (Ne.symm hk)
      simp only [List.lookup, hbe] at h
      rw [insertEval, if_neg hk]
      simp only [List.lookup, hbe]
      exact insertEval_lookup_self_some t sd0 rest h

theorem insertEval_lookup_ne (t : EvalEntry) (title : String) (hne : title ≠ t.2.1.title) :
    ∀ acc : List (String × PieceScoreData),
      (insertEval acc t).lookup title = acc.lookup title
  | [] => by
    rw [insertEval]
    have hbe : (title == t.2.1.title) = false := beq_eq_false_iff_ne.mpr hne
    simp only [List.lookup, hbe]
  | (k, sd) :: rest => by
    by_cases hk : k = t.2.1.title
    · rw [insertEval, if_pos hk]
      have hbe : (title == k) = false :=
        beq_eq_false_iff_ne.mpr (fun hh => hne (hh.trans hk))
      simp only [List.lookup, hbe]
    · rw [insertEval, if_neg hk]
      by_cases hkt : title = k
      · have hbe : (title == k) = true := beq_iff_eq.mpr hkt
        simp only [List.lookup, hbe]
      · have hbe : (title == k) = false := beq_eq_false_iff_ne.mpr hkt
        simp only [List.lookup, hbe]
        exact insertEval_lookup_ne t title hne rest

theorem scoreFold_lookup_spec (title : String) :
    ∀ (ts : List EvalEntry) (acc : List (String × PieceScoreData)),
      (acc.lookup title = none →
        (gatherT title ts = [] ∧ (scoreFold acc ts).lookup title = none)
        ∨ ∃ sd, (scoreFold acc ts).lookup title = some sd
            ∧ sd.total_score = (gatherT title ts).sum
            ∧ sd.evaluation_count = (gatherT title ts).length
            ∧ 0 < (gatherT title ts).length)
      ∧ (∀ sd0, acc.lookup title = some sd0 →
          ∃ sd, (scoreFold acc ts).lookup title = some sd
            ∧ sd.total_score = sd0.total_score + (gatherT title ts).sum
            ∧ sd.evaluation_count = sd0.evaluation_count + (gatherT title ts).length)
  | [], acc => by
    constructor
    · intro h
      exact Or.inl ⟨rfl, h⟩
    · intro sd0 h
      exact ⟨sd0, h, by simp [gatherT], by simp [gatherT]⟩
  | t :: ts, acc => by
    have ih := scoreFold_lookup_spec title ts
    by_cases ht : t.2.1.title = title
    · have hg : gatherT title (t :: ts)
          = extract_score_from_evaluation t.2.2 :: gatherT title ts := by
        rw [gatherT, if_pos ht]
      constructor
      · intro h
        right
        have hnone : acc.lookup t.2.1.title = none := by rw [ht]; exact h
        have hbase := insertEval_lookup_self_none t acc hnone
        have hbase2 : (insertEval acc t).lookup title =
            some { piece := t.2.1
                   scores := [(t.1, extract_score_from_evaluation t.2.2)]
                   total_score := extract_score_from_evaluation t.2.2
                   evaluation_count := 1 } := by rw [← ht]; exact hbase
        obtain ⟨sd, hsd, htot, hcnt⟩ := (ih (insertEval acc t)).2 _ hbase2
        refine ⟨sd, hsd, ?_, ?_, ?_⟩
        · rw [hg]; simp only [List.sum_cons]; rw [htot]
        · rw [hg]; simp only [List.length_cons]; rw [hcnt]; dsimp only; omega
        · rw [hg]; simp
      · intro sd0 h
        have hsome : acc.lookup t.2.1.title = some sd0 := by rw [ht]; exact h
        have hbase := insertEval_lookup_self_some t sd0 acc hsome
        have hbase2 : (insertEval acc t).lookup title =
            some { sd0 with
                     scores := upsertAssoc t.1 (extract_score_from_evaluation t.2.2) sd0.scores
                     total_score := sd0.total_score + extract_score_from_evaluation t.2.2
                     evaluation_count := sd0.evaluation_count + 1 } := by
          rw [← ht]; exact hbase
        obtain ⟨sd, hsd, htot, hcnt⟩ := (ih (insertEval acc t)).2 _ hbase2
        refine ⟨sd, hsd, ?_, ?_⟩
        · rw [hg]; simp only [List.sum_cons]; rw [htot]; ring
        · rw [hg]; simp only [List.length_cons]; rw [hcnt]; dsimp only; omega
  
    · have hg : gatherT title (t :: ts) = gatherT title ts := by
        rw [gatherT, if_neg ht]
      have hkeep := insertEval_lookup_ne t title (fun hh => ht hh.symm) acc
      constructor
      · intro h
        rw [hg]
        have h2 : (insertEval acc t).lookup title = none := by rw [hkeep]; exact h
        exact (ih (insertEval acc t)).1 h2
      · intro sd0 h
        rw [hg]
        have h2 : (insertEval acc t).lookup title = some sd0 := by rw [hkeep]; exact h
        exact (ih (insertEval acc t)).2 sd0 h2

theorem sorted_sortScoredDesc (l : List ScoredPiece) :
    List.Sorted (fun a b => b.average_score ≤ a.average_score) (sortScoredDesc l) := by
  haveI : IsTotal ScoredPiece (fun a b => b.average_score ≤ a.average_score) :=
    ⟨fun a b => le_total b.average_score a.average_score⟩
  haveI : IsTrans ScoredPiece (fun a b => b.average_score ≤ a.average_score) :=
    ⟨fun a b c h1 h2 => le_trans h2 h1⟩
  exact List.sorted_insertionSort _ l

theorem score_pieces_lookup_eq (results : List (String × List (APiece × Evaluation)))
    (t : String) :
    (score_pieces results).lookup t
      = ((scoreFold [] (flattenEvaluations results)).lookup t).map (fun sd : PieceScoreData =>
          { piece := sd.piece
            scores := sd.scores
            total_score := sd.total_score
            evaluation_count := sd.evaluation_count
            average_score :=
              if 0 < sd.evaluation_count then sd.total_score / sd.evaluation_count
              else 0 }) := by
  rw [score_pieces]
  exact lookup_map_F (fun sd : PieceScoreData =>
    ({ piece := sd.piece
       scores := sd.scores
       total_score := sd.total_score
       evaluation_count := sd.evaluation_count
       average_score :=
         if 0 < sd.evaluation_count then sd.total_score / sd.evaluation_count
         else 0 } : ScoredPiece)) t _

/-! ## Claim C7 -/

/-- A concrete piece shape for the C7 counterexample run. -/
def c7cxPiece : APiece :=
  { title := "Sample"
    composer := "Unknown"
    duration_minutes := 5
    difficulty_level := "intermediate"
    key_signature := "C"
    instruments := ["piano"]
    genre := "classical"
    reasoning := "" }

/-- Claim C7 (counterexample): an advisor whose evaluate call failed supplies
its default evaluation dict, and `_extract_score_from_evaluation` probes
`confidence` FIRST among the score fields, so the failed advisor contributes
0.5 (its default confidence) - not the documented failure default score of 5:
with a single failed advisor the aggregate for the piece is 0.5 ≠ 5. -/
theorem c7_counterexample :
    extract_score_from_evaluation curatorDefaultEvaluation = 1/2
  ∧ extract_score_from_evaluation technicalDefaultEvaluation = 1/2
  ∧ extract_score_from_evaluation flowDefaultEvaluation = 1/2
  ∧ ((score_pieces [("curator", [(c7cxPiece, curatorDefaultEvaluation)])]).map
        (fun e => (e.1, e.2.average_score))
      = [("Sample", 1/2)])
  ∧ ((1 : ℚ)/2 ≠ 5) := by
  refine ⟨rfl, rfl, rfl, ?_, by norm_num⟩
  norm_num [score_pieces, scoreFold, insertEval, flattenEvaluations, c7cxPiece,
    curatorDefaultEvaluation, extract_score_from_evaluation]

/-- Claim C7 (amended): for every piece title present in the `_score_pieces`
output, the associated entry's `average_score` equals the arithmetic mean of
the per-advisor scores extracted for that title (at least one such score
exists), and the Synthesize selection ranks entries in descending order of
`average_score` (stable sort); an advisor whose evaluate call failed
contributes `extract_score_from_evaluation` of its default evaluation,
which is 0.5 (the default `confidence`, probed first), not 5. -/
theorem c7_amended (results : List (String × List (APiece × Evaluation))) (t : String)
    (ht : t ∈ (score_pieces results).map (fun e => e.1)) :
    (∃ sp, (score_pieces results).lookup t = some sp
       ∧ 1 ≤ (gatherScores results t).length
       ∧ sp.average_score = meanOf (gatherScores results t))
  ∧ List.Sorted (fun a b : ScoredPiece => b.average_score ≤ a.average_score)
      (sortScoredDesc ((score_pieces results).map (fun e => e.2)))
  ∧ extract_score_from_evaluation curatorDefaultEvaluation = 1/2
  ∧ extract_score_from_evaluation technicalDefaultEvaluation = 1/2
  ∧ extract_score_from_evaluation flowDefaultEvaluation = 1/2 := by
  refine ⟨?_, sorted_sortScoredDesc _, rfl, rfl, rfl⟩
  obtain ⟨v, hv⟩ := lookup_isSome_of_mem_keys t (score_pieces results) ht
  rcases (scoreFold_lookup_spec t (flattenEvaluations results) []).1 rfl with
    ⟨hgnil, hnone⟩ | ⟨sd, hsd, htot, hcnt, hpos⟩
  · exfalso
    rw [score_pieces_lookup_eq, hnone] at hv
    exact Option.noConfusion hv
  · rw [score_pieces_lookup_eq, hsd]
    refine ⟨_, rfl, ?_, ?_⟩
    · rw [gatherScores_eq_gatherT]
      exact hpos
    · show (if 0 < sd.evaluation_count then sd.total_score / (sd.evaluation_count : ℚ)
          else 0) = meanOf (gatherScores results t)
      rw [gatherScores_eq_gatherT, meanOf]
      rw [if_pos (show 0 < sd.evaluation_count by rw [hcnt]; exact hpos)]
      rw [htot, hcnt]

/-- A concrete piece for the C7 witness run. -/
def c7Piece : APiece :=
  { title := "Autumn Leaves"
    composer := "Kosma"
    duration_minutes := 5
    difficulty_level := "intermediate"
    key_signature := "G minor"
    instruments := ["piano"]
    genre := "jazz"
    reasoning := "" }

/-- Concrete evaluation results for the C7 witness: two advisors, both on
their default evaluations. -/
def c7Results : List (String × List (APiece × Evaluation)) :=
  [("curator", [(c7Piece, curatorDefaultEvaluation)]),
   ("flow", [(c7Piece, flowDefaultEvaluation)])]

/-- Witness for C7: the title of `c7Piece` is scored and its aggregate is
the mean of the two extracted advisor scores. -/
theorem c7_amended_witness :
    ("Autumn Leaves" ∈ (score_pieces c7Results).map (fun e => e.1))
  ∧ ((∃ sp, (score_pieces c7Results).lookup "Autumn Leaves" = some sp
        ∧ 1 ≤ (gatherScores c7Results "Autumn Leaves").length
        ∧ sp.average_score = meanOf (gatherScores c7Results "Autumn Leaves"))
     ∧ List.Sorted (fun a b : ScoredPiece => b.average_score ≤ a.average_score)
         (sortScoredDesc ((score_pieces c7Results).map (fun e => e.2)))
     ∧ extract_score_from_evaluation curatorDefaultEvaluation = 1/2
     ∧ extract_score_from_evaluation technicalDefaultEvaluation = 1/2
     ∧ extract_score_from_evaluation flowDefaultEvaluation = 1/2) :=
  ⟨by decide, c7_amended c7Results "Autumn Leaves" (by decide)⟩
